import Mathlib

/- Shallow embedding of the typing-analyzer event-stream analysis engine
   (src/analyzer.py, src/keylogger.py, src/utils.py).

   Modelling conventions:
   - Python floats are modelled as rationals; all derived statistics are
     exact rational arithmetic.  Where CPython computes a square root
     (statistics.stdev), the model stores the squared value (the sample
     variance), since square roots leave the rationals; every claim settled
     below is insensitive to that monotone change of representation.
   - Python strings are manipulated through their character lists so that
     every definition evaluates inside the kernel; character classification
     (isprintable, isalnum, lower) is the ASCII fragment of the CPython
     behaviour, which covers the whole event alphabet of this repository.
   - Python dicts (and collections.Counter / defaultdict) are modelled as
     association lists in key-insertion order, which is exactly the CPython
     iteration order; Counter.most_common and list.sort are modelled with a
     stable merge sort, matching the stability guarantee of CPython sorts.
   - datetime.fromtimestamp(..).hour is modelled as the UTC hour of the
     timestamp; the ambient local timezone is fixed, as it is during one
     Python process.
   - Division by zero yields 0 in Lean; every division in the translated
     code is reached only under the guards the source itself establishes,
     as noted at each site. -/

namespace TypingAnalyzer

set_option maxRecDepth 12000

/-- Arithmetic mean, statistics.mean.  CPython raises on an empty list; all
call sites in the source guard non-emptiness, and Lean returns 0 there. -/
def pyMean (l : List ℚ) : ℚ := l.sum / l.length

/-- Ascending stable sort of rationals, the order sorted() produces. -/
def pySortQ (l : List ℚ) : List ℚ := l.mergeSort (fun a b => decide (a ≤ b))

/-- Median, statistics.median: mean of the two middle elements of the sorted
list when the length is even, the middle element when it is odd. -/
def pyMedian (l : List ℚ) : ℚ :=
  let s := pySortQ l
  let n := s.length
  if n % 2 = 1 then s.getD (n / 2) 0
  else (s.getD (n / 2 - 1) 0 + s.getD (n / 2) 0) / 2

/-- Sample variance, the square of statistics.stdev (see header note on
square roots).  Call sites guard a sample size of at least 2. -/
def pySampleVariance (l : List ℚ) : ℚ :=
  let m := pyMean l
  (l.map (fun x => (x - m) * (x - m))).sum / ((l.length : ℚ) - 1)

/-- Percentile with linear interpolation, numpy.percentile default method:
for a sorted sample a of size n the q-th percentile sits at position
(n-1)*q/100 and interpolates linearly between the two neighbours. -/
def pyPercentile (l : List ℚ) (q : ℚ) : ℚ :=
  let s := pySortQ l
  let n := s.length
  let pos : ℚ := ((n : ℚ) - 1) * q / 100
  let lo : ℕ := (⌊pos⌋).toNat
  let frac : ℚ := pos - (lo : ℚ)
  if lo + 1 < n then s.getD lo 0 + frac * (s.getD (lo + 1) 0 - s.getD lo 0)
  else s.getD lo 0

/-- Maximum of a list of rationals, Python max(); call sites guard
non-emptiness. -/
def pyMaxQ (l : List ℚ) : ℚ := l.foldl max (l.headD 0)

/-- Minimum of a list of rationals, Python min(); call sites guard
non-emptiness. -/
def pyMinQ (l : List ℚ) : ℚ := l.foldl min (l.headD 0)

/-- Distinct elements in first-occurrence order: the key iteration order of
a CPython dict, Counter or defaultdict populated from a scan. -/
def pyFirstKeys {κ : Type} [DecidableEq κ] (l : List κ) : List κ :=
  l.foldl (fun acc k => if k ∈ acc then acc else acc ++ [k]) []

/-- Insertion-ordered grouping, defaultdict(list) populated by one scan:
keys in first-occurrence order, each with its values in scan order. -/
def pyGroup {κ α : Type} [DecidableEq κ] (l : List (κ × α)) : List (κ × List α) :=
  (pyFirstKeys (l.map (·.1))).map
    (fun k => (k, (l.filter (fun p => decide (p.1 = k))).map (·.2)))

/-- Multiset count in insertion order, collections.Counter. -/
def pyCounter {α : Type} [DecidableEq α] (l : List α) : List (α × Nat) :=
  (pyFirstKeys l).map (fun k => (k, l.countP (fun x => decide (x = k))))

/-- Counter.most_common with no argument: entries sorted by count
descending, ties kept in insertion order (CPython sorted is stable). -/
def pyMostCommonAll {α : Type} [DecidableEq α] (l : List α) : List (α × Nat) :=
  (pyCounter l).mergeSort (fun a b => decide (b.2 ≤ a.2))

/-- Counter.most_common n: the n top entries of the stable descending
order (heapq.nlargest preserves the sorted-descending tie order). -/
def pyMostCommon {α : Type} [DecidableEq α] (n : Nat) (l : List α) : List (α × Nat) :=
  (pyMostCommonAll l).take n

/-- Python negative-end slice xs[-n:]. -/
def pyLastN {α : Type} (n : Nat) (l : List α) : List α := l.drop (l.length - n)

/-- First maximiser of f, Python max(xs, key=f): max keeps the earliest of
equal keys.  Call sites guard non-emptiness. -/
def pyMaxBy {α β : Type} [LinearOrder β] (f : α → β) (l : List α) : Option α :=
  l.foldl
    (fun acc x => match acc with
      | none => some x
      | some m => if f m < f x then some x else some m)
    none

/-- First minimiser of f, Python min(xs, key=f). -/
def pyMinBy {α β : Type} [LinearOrder β] (f : α → β) (l : List α) : Option α :=
  l.foldl
    (fun acc x => match acc with
      | none => some x
      | some m => if f x < f m then some x else some m)
    none

/-- Decidable leading-segment test on lists (is p an initial segment of l). -/
def listLeads {α : Type} [DecidableEq α] : List α → List α → Bool
  | [], _ => true
  | _ :: _, [] => false
  | a :: p, b :: l => decide (a = b) && listLeads p l

/-- Substring containment, the Python operator sub in text (always true for
an empty sub, as in Python). -/
def listContainsSub {α : Type} [DecidableEq α] (sub : List α) : List α → Bool
  | [] => sub.isEmpty
  | b :: l => listLeads sub (b :: l) || listContainsSub sub l

/-- Substring containment on strings, Python sub in s. -/
def pyInStr (sub s : String) : Bool := listContainsSub sub.data s.data

/-- Index of the first occurrence of sub in text, Python text.find(sub)
restricted to the call sites where an occurrence exists. -/
def listFindSub {α : Type} [DecidableEq α] (sub : List α) : List α → Option Nat
  | [] => if sub.isEmpty then some 0 else none
  | b :: l =>
    if listLeads sub (b :: l) then some 0
    else (listFindSub sub l).map (· + 1)

/-- Python str.lower restricted to ASCII (chr-by-chr Char.toLower). -/
def pyLower (s : String) : String := String.mk (s.data.map Char.toLower)

/-- Python str.strip(): drop leading and trailing whitespace. -/
def pyStrip (s : String) : String :=
  String.mk (((s.data.dropWhile Char.isWhitespace).reverse.dropWhile
    Char.isWhitespace).reverse)

/-- Python str.rstrip(chars): drop trailing characters drawn from cs. -/
def pyRstrip (cs : List Char) (s : String) : String :=
  String.mk ((s.data.reverse.dropWhile (fun c => decide (c ∈ cs))).reverse)

/-- Python str.isprintable on one character, ASCII fragment: the visible
ASCII range plus the space. -/
def pyCharPrintable (c : Char) : Bool := 0x20 ≤ c.toNat && c.toNat < 0x7f

/-- Python str.isprintable, ASCII fragment. -/
def pyIsPrintable (s : String) : Bool := s.data.all pyCharPrintable

/-- Python str.isalnum, ASCII fragment (letters and digits). -/
def pyIsAlnum (s : String) : Bool := s.data.all Char.isAlphanum

/-- Python truthiness of a string: non-empty. -/
def pyTruthyStr (s : String) : Bool := !s.isEmpty

/-- Python truthiness of an optional string: present and non-empty. -/
def pyTruthyOptStr : Option String → Bool
  | none => false
  | some s => pyTruthyStr s

/-- Hour of day of a timestamp, datetime.fromtimestamp(ts).hour with the
ambient timezone fixed to UTC (see header note). -/
def hourOf (ts : ℚ) : ℤ := (⌊ts / 3600⌋) % 24


/-- KeystrokeEvent, utils.py lines 12-42: the immutable per-keystroke
record the engine consumes.  Field names follow the dataclass. -/
structure KeystrokeEvent where
  timestamp : ℚ
  key_code : ℤ
  key_char : String
  key_name : String
  dwell_time : ℚ
  time_since_last : ℚ
  app_name : String
  window_title : String
  session_id : String
  is_correction : Bool
  pause_before : ℚ
  typing_burst : Bool
  finger_assignment : Option String := none
  cognitive_load_indicator : Option ℚ := none
  correction_type : Option String := none
  corrected_text : Option String := none
  likely_typo : Option Bool := none
  typo_pattern : Option String := none
deriving DecidableEq, Repr

/-- Configuration values the analysis engine reads (ConfigManager.get call
sites in analyzer.py), with the defaults the source supplies at each call
site. -/
structure Config where
  hesitation_threshold : ℚ := 4/5
  flow_state_threshold : Nat := 60
  all_day_tracking_mode : Bool := true
  short_pause_threshold : ℚ := 120
  medium_pause_threshold : ℚ := 900
  long_pause_threshold : ℚ := 1800
  claude_enabled : Bool := true
  claude_api_key : String := ""
  claude_model : String := "claude-3-5-sonnet-20241022"
  claude_timeout_seconds : Nat := 30
deriving DecidableEq, Repr

/-- calculate_wpm, utils.py lines 236-250: alphanumeric single-character
keystrokes over five, divided by minutes; 0 for a non-positive duration. -/
def calculate_wpm (keystrokes : List KeystrokeEvent) (duration_seconds : ℚ) : ℚ :=
  if duration_seconds ≤ 0 then 0
  else
    let char_count : ℚ :=
      (keystrokes.filter
        (fun k => decide (k.key_char.length = 1) && pyIsAlnum k.key_char)).length
    let words := char_count / 5
    let minutes := duration_seconds / 60
    if 0 < minutes then words / minutes else 0

/-- Session gap threshold selection, analyzer.py lines 982-993: the long
pause threshold in all-day mode, the legacy five minutes otherwise. -/
def sessionGapThreshold (cfg : Config) : ℚ :=
  if cfg.all_day_tracking_mode then cfg.long_pause_threshold else 5 * 60

/-- Loop of _identify_typing_sessions, analyzer.py lines 995-1028, kept at
the level of event segments: prev is events[i-1], current the growing
session, acc the closed sessions.  A gap strictly above the threshold
closes the current segment, which is kept only when it has at least two
events; the final segment is flushed under the same condition.  (The
short/medium/long pause counters of the source are logging-only
diagnostics and do not influence the result.) -/
def sessionLoop (threshold : ℚ) : KeystrokeEvent → List KeystrokeEvent →
    List (List KeystrokeEvent) → List KeystrokeEvent → List (List KeystrokeEvent)
  | prev, current, acc, [] =>
    let _ := prev
    if 1 < current.length then acc ++ [current] else acc
  | prev, current, acc, e :: rest =>
    if threshold < e.timestamp - prev.timestamp then
      sessionLoop threshold e [e]
        (if 1 < current.length then acc ++ [current] else acc) rest
    else
      sessionLoop threshold e (current ++ [e]) acc rest

/-- Event segments underlying _identify_typing_sessions, analyzer.py lines
977-1037: empty for fewer than two events, otherwise the loop above
starting from a singleton segment at the first event. -/
def identifySessionSegments (cfg : Config) (events : List KeystrokeEvent) :
    List (List KeystrokeEvent) :=
  match events with
  | [] => []
  | [_] => []
  | e :: rest => sessionLoop (sessionGapThreshold cfg) e [e] [] rest

/-- Specification-level gap partition (section 4.1 of the spec): the
maximal contiguous runs whose consecutive gaps never exceed the threshold,
with no event dropped.  This is the second, spec-worded definition used to
state the refinement in claim C1; the source function is
identifySessionSegments above. -/
def gapSplitGo (threshold : ℚ) : KeystrokeEvent → List KeystrokeEvent →
    List KeystrokeEvent → List (List KeystrokeEvent)
  | prev, current, [] =>
    let _ := prev
    [current]
  | prev, current, e :: rest =>
    if threshold < e.timestamp - prev.timestamp then
      current :: gapSplitGo threshold e [e] rest
    else
      gapSplitGo threshold e (current ++ [e]) rest

/-- Specification-level gap partition of a whole event list. -/
def gapSplit (threshold : ℚ) : List KeystrokeEvent → List (List KeystrokeEvent)
  | [] => []
  | e :: rest => gapSplitGo threshold e [e] rest

/-- Timestamp of the first event of a segment (0 for the empty segment,
which never occurs in a produced session). -/
def segStartTs (s : List KeystrokeEvent) : ℚ := ((s.head?).map (·.timestamp)).getD 0

/-- Timestamp of the last event of a segment. -/
def segEndTs (s : List KeystrokeEvent) : ℚ := ((s.getLast?).map (·.timestamp)).getD 0

/-- Session record, the dict built by _analyze_session, analyzer.py lines
1094-1113.  start_time and end_time hold the raw timestamps whose
isoformat rendering the source stores (the rendering of a fixed timestamp
is an injective pure function and is elided).  typing_rhythm_consistency
follows the header note on square roots: the source value is
1/stdev(intervals); the model stores 1/variance(intervals), positive and
zero exactly together with it. -/
structure SessionData where
  session_number : Nat
  start_time : ℚ
  end_time : ℚ
  total_duration_minutes : ℚ
  active_duration_minutes : ℚ
  duration_minutes : ℚ
  duration_seconds : ℚ
  total_keystrokes : Nat
  character_count : Nat
  word_count : ℚ
  wpm : ℚ
  error_rate : ℚ
  accuracy_rate : ℚ
  corrections : Nat
  primary_app : String
  apps_used : List String
  avg_keystroke_interval : ℚ
  typing_rhythm_consistency : ℚ
deriving DecidableEq, Repr

/-- Consecutive inter-event gaps of a segment, ts[i] - ts[i-1]. -/
def eventGaps (l : List KeystrokeEvent) : List ℚ :=
  List.zipWith (fun a b => b.timestamp - a.timestamp) l (l.drop 1)

/-- The set of application names of a session.  CPython builds a set whose
iteration order is fixed within one process; the model uses
first-occurrence order. -/
def sessionAppsUsed (session_events : List KeystrokeEvent) : List String :=
  pyFirstKeys ((session_events.filter (fun e => pyTruthyStr e.app_name)).map
    (·.app_name))

/-- _analyze_session, analyzer.py lines 1039-1113: none models the empty
dict returned for fewer than two events. -/
def analyzeSession (session_events : List KeystrokeEvent) : Option SessionData :=
  if session_events.length < 2 then none
  else
    let start_time := segStartTs session_events
    let end_time := segEndTs session_events
    let total_duration_seconds := end_time - start_time
    let total_duration_minutes := total_duration_seconds / 60
    let pause_threshold : ℚ := 30
    let filtered_active :=
      ((eventGaps session_events).filter (fun g => decide (g ≤ pause_threshold))).sum
    let active_duration_seconds :=
      if filtered_active < total_duration_seconds * (1/10) then
        total_duration_seconds
      else filtered_active
    let active_duration_minutes := active_duration_seconds / 60
    let session_wpm := calculate_wpm session_events active_duration_seconds
    let corrections := session_events.countP (·.is_correction)
    let total_keystrokes := session_events.length
    let error_rate : ℚ :=
      if 0 < total_keystrokes then (corrections : ℚ) / total_keystrokes * 100 else 0
    let accuracy_rate := 100 - error_rate
    let char_count := session_events.countP
      (fun e => decide (e.key_char.length = 1) && pyIsAlnum e.key_char)
    let word_count : ℚ := (char_count : ℚ) / 5
    let apps_used := sessionAppsUsed session_events
    let primary_app :=
      if apps_used.isEmpty then "Unknown"
      else (pyMaxBy
        (fun app => session_events.countP (fun e => decide (e.app_name = app)))
        apps_used).elim ("Unknown") id
    let intervals := (eventGaps session_events).filter (fun g => decide (g < 2))
    let avg_interval := if intervals.isEmpty then 0 else pyMean intervals
    let typing_rhythm_consistency :=
      if 1 < intervals.length ∧ 0 < pySampleVariance intervals then
        1 / pySampleVariance intervals
      else 0
    some
      { session_number := 0
        start_time := start_time
        end_time := end_time
        total_duration_minutes := total_duration_minutes
        active_duration_minutes := active_duration_minutes
        duration_minutes := active_duration_minutes
        duration_seconds := active_duration_seconds
        total_keystrokes := total_keystrokes
        character_count := char_count
        word_count := word_count
        wpm := session_wpm
        error_rate := error_rate
        accuracy_rate := accuracy_rate
        corrections := corrections
        primary_app := primary_app
        apps_used := apps_used
        avg_keystroke_interval := avg_interval
        typing_rhythm_consistency := typing_rhythm_consistency }

/-- _identify_typing_sessions, analyzer.py lines 977-1037: the session
records of the kept segments.  In the source _analyze_session is applied
exactly to the segments with at least two events, on which it never
returns the empty dict, so filterMap is the faithful composition. -/
def identifyTypingSessions (cfg : Config) (events : List KeystrokeEvent) :
    List SessionData :=
  (identifySessionSegments cfg events).filterMap analyzeSession

/-- _calculate_active_typing_duration, analyzer.py lines 972-975. -/
def calculateActiveTypingDuration (cfg : Config) (events : List KeystrokeEvent) : ℚ :=
  ((identifyTypingSessions cfg events).map (·.duration_minutes)).sum

/-- Default event used only to give Python-style direct indexing a total
Lean reading; every index used below is in range by construction. -/
def dummyEvent : KeystrokeEvent :=
  { timestamp := 0, key_code := 0, key_char := "", key_name := "",
    dwell_time := 0, time_since_last := 0, app_name := "", window_title := "",
    session_id := "", is_correction := false, pause_before := 0,
    typing_burst := false }

/-- Flow-period record, the dict built at analyzer.py lines 385-394 and
407-417. -/
structure FlowPeriod where
  start_time : ℚ
  end_time : ℚ
  duration_seconds : ℚ
  keystroke_count : Nat
  wpm : ℚ
  app_name : String
deriving DecidableEq, Repr

/-- Flow predicate, analyzer.py lines 362-366: burst typing, not a
correction, pause strictly below half a second. -/
def isFlowing (e : KeystrokeEvent) : Bool :=
  e.typing_burst && !e.is_correction && decide (e.pause_before < 1/2)

/-- Flow period emitted when the streak [s, i) is broken at index i,
analyzer.py lines 377-394. -/
def midFlowPeriod (events : List KeystrokeEvent) (s i : Nat) : FlowPeriod :=
  let flow_start_time := (events.getD s dummyEvent).timestamp
  let flow_end_time := (events.getD (i - 1) dummyEvent).timestamp
  let duration := flow_end_time - flow_start_time
  let flow_events := (events.drop s).take (i - s)
  { start_time := flow_start_time
    end_time := flow_end_time
    duration_seconds := duration
    keystroke_count := flow_events.length
    wpm := calculate_wpm flow_events duration
    app_name := (events.getD s dummyEvent).app_name }

/-- Flow period flushed when the streak [s, n) reaches the end of the
data, analyzer.py lines 400-417. -/
def endFlowPeriod (events : List KeystrokeEvent) (s : Nat) : FlowPeriod :=
  let flow_start_time := (events.getD s dummyEvent).timestamp
  let flow_end_time := ((events.getLast?).getD dummyEvent).timestamp
  let duration := flow_end_time - flow_start_time
  let flow_events := events.drop s
  { start_time := flow_start_time
    end_time := flow_end_time
    duration_seconds := duration
    keystroke_count := flow_events.length
    wpm := calculate_wpm flow_events duration
    app_name := (events.getD s dummyEvent).app_name }

/-- Loop of _detect_flow_states, analyzer.py lines 357-417: rest is the
unprocessed suffix events[i:], start the index opening the current streak,
count its length, acc the emitted periods. -/
def detectFlowGo (events : List KeystrokeEvent) (minK : Nat) :
    List KeystrokeEvent → Nat → Option Nat → Nat → List FlowPeriod → List FlowPeriod
  | [], _, start, count, acc =>
    match start with
    | some s => if minK ≤ count then acc ++ [endFlowPeriod events s] else acc
    | none => acc
  | e :: rest, i, start, count, acc =>
    if isFlowing e then
      detectFlowGo events minK rest (i + 1) (some (start.getD i)) (count + 1) acc
    else
      detectFlowGo events minK rest (i + 1) none 0
        (match start with
          | some s => if minK ≤ count then acc ++ [midFlowPeriod events s i] else acc
          | none => acc)

/-- _detect_flow_states, analyzer.py lines 354-419. -/
def detectFlowStates (events : List KeystrokeEvent) (min_keystrokes : Nat) :
    List FlowPeriod :=
  detectFlowGo events min_keystrokes events 0 none 0 []

/-- Per-event input of the keylogger correction reconstructor,
keylogger.py line 137. -/
structure KeyInput where
  key_char : String
  key_name : String
  is_correction : Bool
deriving DecidableEq, Repr

/-- Correction annotation, the dict built at keylogger.py lines 139-145;
the typo_pattern key is added only on a match, hence the Option. -/
structure CorrectionData where
  is_correction : Bool
  correction_length : Nat
  corrected_text : String
  likely_typo : Bool
  correction_type : String
  typo_pattern : Option String
deriving DecidableEq, Repr

/-- Mutable keylogger state consumed by _detect_correction_sequence,
keylogger.py lines 109-111: rolling buffer of recent printable key
characters and the previous-event-was-a-correction flag. -/
structure KeyloggerState where
  recent_keystrokes : List String
  last_key_was_correction : Bool
deriving DecidableEq, Repr

/-- Initial keylogger state, keylogger.py lines 109-111. -/
def initKeyloggerState : KeyloggerState :=
  { recent_keystrokes := [], last_key_was_correction := false }

/-- Common-typo table, keylogger.py lines 177-181, in dict insertion
order. -/
def common_typos : List (String × String) :=
  [("teh", "the"), ("adn", "and"), ("recieve", "receive"),
   ("seperate", "separate"), ("definately", "definitely"),
   ("occured", "occurred"), ("accomodate", "accommodate")]

/-- Join of the last six buffered characters, lowercased: the recent_text
of keylogger.py line 184. -/
def recentText (buf : List String) : String :=
  pyLower (String.mk ((pyLastN 6 buf).map String.data).flatten)

/-- _detect_correction_sequence, keylogger.py lines 137-192, as a pure
state transformer.  The local last_two of lines 173-174 is computed by the
source and never used, and is elided.  The loop over common_typos breaks
at the first match, modelled by find?. -/
def detectCorrectionSequence (st : KeyloggerState) (inp : KeyInput) :
    CorrectionData × KeyloggerState :=
  if inp.is_correction then
    let ctype :=
      if !st.last_key_was_correction then "single_correction"
      else "multi_correction"
    if 0 < st.recent_keystrokes.length then
      ({ is_correction := true, correction_length := 1,
         corrected_text := (st.recent_keystrokes.getLast?).getD "",
         likely_typo := false, correction_type := ctype, typo_pattern := none },
       { recent_keystrokes := st.recent_keystrokes.dropLast,
         last_key_was_correction := true })
    else
      ({ is_correction := true, correction_length := 0, corrected_text := "",
         likely_typo := false, correction_type := ctype, typo_pattern := none },
       { recent_keystrokes := st.recent_keystrokes,
         last_key_was_correction := true })
  else
    if pyTruthyStr inp.key_char && pyIsPrintable inp.key_char then
      let buf1 := st.recent_keystrokes ++ [inp.key_char]
      let buf2 := if 10 < buf1.length then buf1.drop 1 else buf1
      let hit :=
        if 2 ≤ buf2.length then
          common_typos.find? (fun p => pyInStr p.1 (recentText buf2))
        else none
      match hit with
      | some p =>
        ({ is_correction := false, correction_length := 0, corrected_text := "",
           likely_typo := true, correction_type := "none",
           typo_pattern := some (String.mk (p.1.data ++ (" -> ").data ++ p.2.data)) },
         { recent_keystrokes := buf2, last_key_was_correction := false })
      | none =>
        ({ is_correction := false, correction_length := 0, corrected_text := "",
           likely_typo := false, correction_type := "none", typo_pattern := none },
         { recent_keystrokes := buf2, last_key_was_correction := false })
    else
      ({ is_correction := false, correction_length := 0, corrected_text := "",
         likely_typo := false, correction_type := "none", typo_pattern := none },
       { recent_keystrokes := st.recent_keystrokes,
         last_key_was_correction := false })

/-- Stream run of the correction reconstructor from a given state. -/
def processKeyloggerFrom (st : KeyloggerState) : List KeyInput → List CorrectionData
  | [] => []
  | inp :: rest =>
    let r := detectCorrectionSequence st inp
    r.1 :: processKeyloggerFrom r.2 rest

/-- Stream run of the correction reconstructor from the fresh-keylogger
state. -/
def processKeylogger (inputs : List KeyInput) : List CorrectionData :=
  processKeyloggerFrom initKeyloggerState inputs

/-- State reached after consuming the first k inputs. -/
def keyloggerStateAfter (inputs : List KeyInput) (k : Nat) : KeyloggerState :=
  (inputs.take k).foldl (fun st inp => (detectCorrectionSequence st inp).2)
    initKeyloggerState

/-- Fixed vocabulary of _intelligent_word_split, analyzer.py lines
542-549, in source order. -/
def wordSplitPatterns : List String :=
  ["keyboard", "typing", "accessibility", "customer", "growth", "terminal",
   "directory", "create", "update", "claude", "project", "memory", "config",
   "application", "working", "analysis", "complicated", "window", "error",
   "this", "test", "that", "what", "seems", "maybe", "more", "words",
   "slower", "happens", "find", "gave", "okay", "the", "and", "with",
   "have", "from", "they", "know", "want", "good", "time", "will", "work"]

/-- While-loop of _intelligent_word_split, analyzer.py lines 554-558:
repeatedly find and excise the pattern, appending one copy of it per
occurrence.  Each iteration shortens the text by the pattern length (every
pattern is non-empty), so text length plus one is enough fuel to reproduce
the loop exactly. -/
def removeAllOccur (pattern : List Char) : Nat → List Char → List String →
    List String × List Char
  | 0, text, acc => (acc, text)
  | fuel + 1, text, acc =>
    if listContainsSub pattern text then
      match listFindSub pattern text with
      | some start =>
        removeAllOccur pattern fuel
          (text.take start ++ text.drop (start + pattern.length))
          (acc ++ [String.mk pattern])
      | none => (acc, text)
    else (acc, text)

/-- Lowercase ASCII letter, the character class of the regex [a-z]. -/
def lowerAZ (c : Char) : Bool := decide (0x61 ≤ c.toNat) && decide (c.toNat ≤ 0x7a)

/-- Maximal runs of characters satisfying p, accumulator-style (cur holds
the current run reversed). -/
def splitRunsGo (p : Char → Bool) : List Char → List Char → List (List Char)
  | cur, [] => if cur.isEmpty then [] else [cur.reverse]
  | cur, c :: rest =>
    if p c then splitRunsGo p (c :: cur) rest
    else if cur.isEmpty then splitRunsGo p [] rest
    else cur.reverse :: splitRunsGo p [] rest

/-- re.findall of [a-z]{3,}: maximal lowercase runs of length at least
three, analyzer.py line 561. -/
def findLowerRuns (text : List Char) : List String :=
  ((splitRunsGo lowerAZ [] text).filter (fun r => 3 ≤ r.length)).map String.mk

/-- _intelligent_word_split, analyzer.py lines 532-568. -/
def intelligentWordSplit (merged_text : String) : List String :=
  let text := pyLower merged_text
  let sortedPats :=
    wordSplitPatterns.mergeSort (fun a b => decide (b.length ≤ a.length))
  let extracted :=
    sortedPats.foldl
      (fun acc pat => removeAllOccur pat.data (acc.2.length + 1) acc.2 acc.1)
      (([] : List String), text.data)
  let words := extracted.1 ++ findLowerRuns extracted.2
  let unique_words := pyFirstKeys words
  let meaningful_words := unique_words.filter (fun w => 3 ≤ w.length)
  if meaningful_words.isEmpty then [merged_text] else meaningful_words

/-- Word-validity filter and close of the current word at a whitespace
boundary, analyzer.py lines 589-595. -/
def closeWordPlain (segs : List String) (cur : String) : List String :=
  if pyTruthyStr (pyStrip cur) then
    let clean_word := pyLower (pyStrip cur)
    if 1 < clean_word.length ∧ clean_word.data.any Char.isAlphanum then
      segs ++ [clean_word]
    else segs
  else segs

/-- Close of the current word at sentence punctuation or at end of
stream: trailing punctuation is stripped before the validity check,
analyzer.py lines 601-608 and 610-614. -/
def closeWordPunct (segs : List String) (cur : String) : List String :=
  if pyTruthyStr (pyStrip cur) then
    let clean_word := pyRstrip (['.', '!', '?', ',', ':', ';'])
      (pyLower (pyStrip cur))
    if 1 < clean_word.length ∧ clean_word.data.any Char.isAlphanum then
      segs ++ [clean_word]
    else segs
  else segs

/-- Per-event step of the word reconstruction scan, analyzer.py lines
578-608: state is (closed segments, current word buffer). -/
def wordStep (st : List String × String) (e : KeystrokeEvent) :
    List String × String :=
  if e.is_correction then
    if e.key_name = "backspace" ∨ e.key_name = "delete" then
      if pyTruthyStr st.2 then (st.1, String.mk st.2.data.dropLast) else st
    else st
  else if pyTruthyStr e.key_char then
    let char := e.key_char
    if char = " " ∨ pyInStr char ("\t\n\r") then
      (closeWordPlain st.1 st.2, "")
    else if pyIsPrintable char then
      let cur2 := String.mk (st.2.data ++ char.data)
      if pyInStr char (".!?") then (closeWordPunct st.1 cur2, "")
      else (st.1, cur2)
    else st
  else st

/-- Raw text segments of analyze_word_patterns before the repair pass,
analyzer.py lines 575-614: the scan above followed by the final-word
flush. -/
def rawTextSegments (events : List KeystrokeEvent) : List String :=
  let st := events.foldl wordStep (([] : List String), "")
  closeWordPunct st.1 st.2

/-- Repair pass, analyzer.py lines 617-626: segments longer than twenty
characters are re-split as merged text. -/
def enhancedSegments (events : List KeystrokeEvent) : List String :=
  (rawTextSegments events).flatMap
    (fun segment =>
      if 20 < segment.length then intelligentWordSplit segment else [segment])

/-- Per-word efficiency record, analyzer.py lines 646-655. -/
structure WordEffData where
  frequency : Nat
  percentage : ℚ
  total_keystrokes : Nat
  potential_shortcuts : Bool
deriving DecidableEq, Repr

/-- Result of analyze_word_patterns, analyzer.py lines 657-667. -/
structure WordPatterns where
  total_words : Nat
  unique_words : Nat
  most_frequent_words : List (String × Nat)
  most_frequent_bigrams : List (String × Nat)
  most_frequent_trigrams : List (String × Nat)
  word_efficiency : List (String × WordEffData)
  vocabulary_size : Nat
  repetition_rate : ℚ
  text_segments : List String
deriving DecidableEq, Repr

/-- Adjacent two-word phrases joined by a space, analyzer.py lines
636-637. -/
def wordBigrams (segs : List String) : List String :=
  List.zipWith (fun a b => String.mk (a.data ++ (Char.ofNat 0x20) :: b.data))
    segs (segs.drop 1)

/-- Adjacent three-word phrases, analyzer.py lines 639-640. -/
def wordTrigrams (segs : List String) : List String :=
  List.zipWith (fun ab c => String.mk (ab.data ++ (Char.ofNat 0x20) :: c.data))
    (wordBigrams segs) (segs.drop 2)

/-- analyze_word_patterns, analyzer.py lines 570-667. -/
def analyzeWordPatterns (events : List KeystrokeEvent) : WordPatterns :=
  let text_segments := enhancedSegments events
  let word_counts := pyCounter text_segments
  let total_words := text_segments.length
  let word_efficiency :=
    ((pyMostCommon 20 text_segments).filter (fun p => 3 ≤ p.2)).map
      (fun p =>
        (p.1,
          { frequency := p.2
            percentage := (p.2 : ℚ) / (total_words : ℚ) * 100
            total_keystrokes := p.1.length * p.2
            potential_shortcuts := 6 < p.1.length : WordEffData }))
  { total_words := total_words
    unique_words := word_counts.length
    most_frequent_words := pyMostCommon 20 text_segments
    most_frequent_bigrams := pyMostCommon 10 (wordBigrams text_segments)
    most_frequent_trigrams := pyMostCommon 10 (wordTrigrams text_segments)
    word_efficiency := word_efficiency
    vocabulary_size := word_counts.length
    repetition_rate :=
      if word_counts.isEmpty then 0
      else ((word_counts.filter (fun p => 1 < p.2)).length : ℚ) /
        (word_counts.length : ℚ)
    text_segments := text_segments }

/-- Maximal runs of consecutive correction events, analyzer.py lines
431-455 (accumulator is the current run). -/
def correctionRunsGo : List KeystrokeEvent → List KeystrokeEvent →
    List (List KeystrokeEvent)
  | current, [] => if current.isEmpty then [] else [current]
  | current, e :: rest =>
    if e.is_correction then correctionRunsGo (current ++ [e]) rest
    else if current.isEmpty then correctionRunsGo [] rest
    else current :: correctionRunsGo [] rest

/-- Correction-sequence record, the dict of analyzer.py lines 440-445. -/
structure CorrectionSeq where
  length : Nat
  timestamp : ℚ
  corrected_chars : List String
  app_name : String
deriving DecidableEq, Repr

/-- Build one correction-sequence record from a run of corrections. -/
def mkCorrectionSeq (run : List KeystrokeEvent) : CorrectionSeq :=
  { length := run.length
    timestamp := segStartTs run
    corrected_chars :=
      (run.filter (fun e => pyTruthyOptStr e.corrected_text)).map
        (fun e => (e.corrected_text).getD "")
    app_name := (((run.head?).map (·.app_name)).getD "") }

/-- Correction sequences of the stream, analyzer.py lines 431-455. -/
def correctionSequences (events : List KeystrokeEvent) : List CorrectionSeq :=
  (correctionRunsGo [] events).map mkCorrectionSeq

/-- Result of analyze_error_patterns, analyzer.py lines 516-530.  The
correction_sequences key stores the count, as in the source. -/
structure ErrorPatterns where
  total_corrections : Nat
  overall_error_rate : ℚ
  correction_sequences : Nat
  avg_correction_length : ℚ
  max_correction_length : Nat
  correction_types : List (String × Nat)
  typo_patterns : List (String × Nat)
  likely_typos_detected : Nat
  error_prone_chars : List (String × Nat)
  app_error_rates : List (String × ℚ)
  hourly_error_rates : List (ℤ × ℚ)
  correction_efficiency : ℚ
  error_frequency : ℚ
deriving DecidableEq, Repr

/-- Per-application error rates, analyzer.py lines 472-481: only
applications with at least twenty keystrokes are reported. -/
def appErrorRates (events : List KeystrokeEvent) : List (String × ℚ) :=
  ((pyGroup (events.map (fun e => (e.app_name, e)))).filter
    (fun g => 20 ≤ g.2.length)).map
    (fun g => (g.1, ((g.2.countP (·.is_correction) : ℚ)) / (g.2.length : ℚ) * 100))

/-- Per-hour error rates, analyzer.py lines 484-494: only hours with at
least ten keystrokes are reported. -/
def hourlyErrorRates (events : List KeystrokeEvent) : List (ℤ × ℚ) :=
  ((pyGroup (events.map (fun e => (hourOf e.timestamp, e)))).filter
    (fun g => 10 ≤ g.2.length)).map
    (fun g => (g.1, ((g.2.countP (·.is_correction) : ℚ)) / (g.2.length : ℚ) * 100))

/-- Characters typed immediately before a correction, analyzer.py lines
497-504: the previous keystroke must carry a character and not itself be
a correction. -/
def charsBeforeCorrection (events : List KeystrokeEvent) : List String :=
  (List.zipWith (fun prev e => (prev, e)) events (events.drop 1)).filterMap
    (fun p =>
      if p.2.is_correction ∧ pyTruthyStr p.1.key_char ∧ ¬p.1.is_correction then
        some p.1.key_char
      else none)

/-- analyze_error_patterns, analyzer.py lines 421-530. -/
def analyzeErrorPatterns (events : List KeystrokeEvent) : ErrorPatterns :=
  let total_corrections := events.countP (·.is_correction)
  let total_keystrokes := events.length
  let error_rate : ℚ :=
    if 0 < total_keystrokes then
      (total_corrections : ℚ) / (total_keystrokes : ℚ) * 100
    else 0
  let seqs := correctionSequences events
  let correction_types :=
    pyCounter ((events.filter (fun e => pyTruthyOptStr e.correction_type)).map
      (fun e => (e.correction_type).getD ""))
  let typoEvents := events.filter
    (fun e => (e.likely_typo == some true) && pyTruthyOptStr e.typo_pattern)
  let typo_patterns := pyMostCommon 10 (typoEvents.map (fun e => (e.typo_pattern).getD ""))
  let correction_delays :=
    (seqs.filter (fun s => 0 < s.corrected_chars.length)).map
      (fun s => if 0 < s.length then (1 : ℚ) / (s.length : ℚ) else 1)
  { total_corrections := total_corrections
    overall_error_rate := error_rate
    correction_sequences := seqs.length
    avg_correction_length :=
      if seqs.isEmpty then 0 else pyMean (seqs.map (fun s => (s.length : ℚ)))
    max_correction_length :=
      if seqs.isEmpty then 0 else (seqs.map (·.length)).foldl max 0
    correction_types := correction_types
    typo_patterns := typo_patterns
    likely_typos_detected := typoEvents.length
    error_prone_chars := pyMostCommon 10 (charsBeforeCorrection events)
    app_error_rates :=
      (appErrorRates events).mergeSort (fun a b => decide (b.2 ≤ a.2))
    hourly_error_rates := hourlyErrorRates events
    correction_efficiency :=
      if correction_delays.isEmpty then 0 else pyMean correction_delays
    error_frequency :=
      if 0 < total_keystrokes then
        (total_corrections : ℚ) / ((total_keystrokes : ℚ) / 100)
      else 0 }

/-- Per-key hesitation statistics, the inner dict of analyzer.py lines
131-141. -/
structure KeyHesitationStats where
  mean_pause : ℚ
  median_pause : ℚ
  max_pause : ℚ
  hesitation_rate : ℚ
  sample_size : Nat
deriving DecidableEq, Repr

/-- Global pause distribution, analyzer.py lines 148-162 (std_dev follows
the header note on square roots: the model stores the variance). -/
structure PauseDistribution where
  mean : ℚ
  median : ℚ
  std_dev : ℚ
  p25 : ℚ
  p75 : ℚ
  p90 : ℚ
  p95 : ℚ
deriving DecidableEq, Repr

/-- Result of analyze_hesitation_patterns, analyzer.py lines 164-175.  The
context_pauses grouping of lines 120 and 126-128 is collected by the
source but never read and is elided. -/
structure HesitationPatterns where
  key_hesitation_stats : List (String × KeyHesitationStats)
  hesitant_keys : List (String × KeyHesitationStats)
  pause_distribution : PauseDistribution
  app_pause_patterns : List (String × ℚ)
  total_pauses : Nat
  long_pauses : Nat
deriving DecidableEq, Repr

/-- Pauses grouped by key (key_char, falling back to key_name when the
char is empty), analyzer.py lines 118-124, insertion order. -/
def keyPauses (events : List KeystrokeEvent) : List (String × List ℚ) :=
  pyGroup ((events.filter (fun e => decide (0 < e.pause_before))).map
    (fun e => (if pyTruthyStr e.key_char then e.key_char else e.key_name,
      e.pause_before)))

/-- Pauses grouped by application, analyzer.py line 125. -/
def appPauses (events : List KeystrokeEvent) : List (String × List ℚ) :=
  pyGroup ((events.filter (fun e => decide (0 < e.pause_before))).map
    (fun e => (e.app_name, e.pause_before)))

/-- analyze_hesitation_patterns, analyzer.py lines 111-175. -/
def analyzeHesitationPatterns (cfg : Config) (events : List KeystrokeEvent) :
    HesitationPatterns :=
  let pause_threshold := cfg.hesitation_threshold
  let key_hesitation_stats :=
    ((keyPauses events).filter (fun g => 5 < g.2.length)).map
      (fun g =>
        (g.1,
          { mean_pause := pyMean g.2
            median_pause := pyMedian g.2
            max_pause := pyMaxQ g.2
            hesitation_rate :=
              ((g.2.countP (fun p => decide (pause_threshold < p))) : ℚ) /
                (g.2.length : ℚ)
            sample_size := g.2.length : KeyHesitationStats }))
  let all_pauses := (events.filter (fun e => decide (0 < e.pause_before))).map
    (·.pause_before)
  { key_hesitation_stats := key_hesitation_stats
    hesitant_keys :=
      (key_hesitation_stats.mergeSort
        (fun a b => decide (b.2.mean_pause ≤ a.2.mean_pause))).take 20
    pause_distribution :=
      { mean := if all_pauses.isEmpty then 0 else pyMean all_pauses
        median := if all_pauses.isEmpty then 0 else pyMedian all_pauses
        std_dev :=
          if 1 < all_pauses.length then pySampleVariance all_pauses else 0
        p25 := if all_pauses.isEmpty then 0 else pyPercentile all_pauses 25
        p75 := if all_pauses.isEmpty then 0 else pyPercentile all_pauses 75
        p90 := if all_pauses.isEmpty then 0 else pyPercentile all_pauses 90
        p95 := if all_pauses.isEmpty then 0 else pyPercentile all_pauses 95 }
    app_pause_patterns :=
      ((appPauses events).filter (fun g => 10 < g.2.length)).map
        (fun g => (g.1, pyMean g.2))
    total_pauses := all_pauses.length
    long_pauses := all_pauses.countP (fun p => decide (2 < p)) }

/-- Result of analyze_key_usage, analyzer.py lines 100-109. -/
structure KeyUsage where
  character_frequencies : List (String × ℚ)
  key_frequencies : List (String × ℚ)
  most_frequent_chars : List (String × Nat)
  least_frequent_chars : List (String × Nat)
  correction_counts : List (String × Nat)
  error_rates : List (String × ℚ)
  total_keystrokes : Nat
  total_corrections : Nat
deriving DecidableEq, Repr

/-- analyze_key_usage, analyzer.py lines 67-109. -/
def analyzeKeyUsage (events : List KeystrokeEvent) : KeyUsage :=
  let chars := (events.filter (fun e => pyTruthyStr e.key_char)).map (·.key_char)
  let keys := events.map (·.key_name)
  let correction_keys := (events.filter (·.is_correction)).map (·.key_name)
  let total_keys := events.length
  let correction_counts := pyCounter correction_keys
  { character_frequencies :=
      (pyMostCommonAll chars).map
        (fun p => (p.1, (p.2 : ℚ) / (total_keys : ℚ) * 100))
    key_frequencies :=
      (pyMostCommonAll keys).map
        (fun p => (p.1, (p.2 : ℚ) / (total_keys : ℚ) * 100))
    most_frequent_chars := pyMostCommon 10 chars
    least_frequent_chars := pyLastN 10 (pyMostCommonAll chars)
    correction_counts := correction_counts
    error_rates :=
      correction_counts.filterMap
        (fun p =>
          let total_uses := keys.countP (fun k => decide (k = p.1))
          if 0 < total_uses then
            some (p.1, (p.2 : ℚ) / (total_uses : ℚ) * 100)
          else none)
    total_keystrokes := total_keys
    total_corrections := (correction_counts.map (·.2)).sum }

/-- Effective finger label of an event, analyzer.py line 247:
finger_assignment or the string unknown. -/
def eventFinger (e : KeystrokeEvent) : String :=
  let f := (e.finger_assignment).getD ""
  if pyTruthyStr f then f else "unknown"

/-- Hand-balance buckets, the dict of analyzer.py line 244. -/
structure HandBalance where
  left : Nat
  right : Nat
  thumbs : Nat
deriving DecidableEq, Repr

/-- Result of analyze_finger_usage, analyzer.py lines 279-296.  The
hand_balance_quotient field is the source key hand_balance_ratio
(renamed only in the Lean identifier). -/
structure FingerUsage where
  finger_usage_counts : List (String × Nat)
  finger_usage_percentages : List (String × ℚ)
  hand_balance : HandBalance
  finger_dwell_times : List (String × ℚ)
  most_used_finger : String
  least_used_finger : String
  same_finger_bigrams : List (String × Nat)
  hand_balance_quotient : ℚ
deriving DecidableEq, Repr

/-- Key label used in bigram strings, key_char or key_name, analyzer.py
lines 272-273. -/
def keyLabel (e : KeystrokeEvent) : String :=
  if pyTruthyStr e.key_char then e.key_char else e.key_name

/-- Same-finger adjacent bigram labels, analyzer.py lines 266-277. -/
def sameFingerBigrams (events : List KeystrokeEvent) : List String :=
  (List.zipWith (fun prev curr => (prev, curr)) events (events.drop 1)).filterMap
    (fun p =>
      if pyTruthyOptStr p.1.finger_assignment ∧
          pyTruthyOptStr p.2.finger_assignment ∧
          p.1.finger_assignment = p.2.finger_assignment then
        some (String.mk ((keyLabel p.1).data ++ (keyLabel p.2).data))
      else none)

/-- analyze_finger_usage, analyzer.py lines 238-296. -/
def analyzeFingerUsage (events : List KeystrokeEvent) : FingerUsage :=
  let fingers := events.map eventFinger
  let finger_counts := pyCounter fingers
  let finger_times :=
    (pyGroup (events.map (fun e => (eventFinger e, e.dwell_time)))).map
      (fun g => (g.1, g.2.sum))
  let hand_balance : HandBalance :=
    { left := (events.filter (fun e => pyInStr ("left") (eventFinger e))).length
      right :=
        (events.filter (fun e =>
          !pyInStr ("left") (eventFinger e) &&
            pyInStr ("right") (eventFinger e))).length
      thumbs :=
        (events.filter (fun e =>
          !pyInStr ("left") (eventFinger e) &&
            !pyInStr ("right") (eventFinger e) &&
            ((eventFinger e = "thumbs") ∨ (eventFinger e = "thumb")))).length }
  let total_keystrokes := events.length
  { finger_usage_counts := finger_counts
    finger_usage_percentages :=
      finger_counts.map (fun p => (p.1, (p.2 : ℚ) / (total_keystrokes : ℚ) * 100))
    hand_balance := hand_balance
    finger_dwell_times := finger_times
    most_used_finger :=
      if finger_counts.isEmpty then "unknown"
      else ((pyMaxBy (·.2) finger_counts).map (·.1)).getD ("unknown")
    least_used_finger :=
      if finger_counts.isEmpty then "unknown"
      else ((pyMinBy (·.2) finger_counts).map (·.1)).getD ("unknown")
    same_finger_bigrams := pyMostCommon 20 (sameFingerBigrams events)
    hand_balance_quotient :=
      (hand_balance.left : ℚ) / (max hand_balance.right 1 : ℚ) }

/-- Populated result of analyze_cognitive_load, analyzer.py lines 334-352;
none at the top models the error dict returned for an empty indicator
sample (line 309).  cognitive_load_std follows the header note on square
roots. -/
structure CognitiveLoadData where
  overall_cognitive_load : ℚ
  cognitive_load_std : ℚ
  high_load_events : Nat
  app_cognitive_load : List (String × ℚ)
  hourly_cognitive_load : List (ℤ × ℚ)
  peak_load_hour : Option ℤ
  lowest_load_hour : Option ℤ
deriving DecidableEq, Repr

/-- analyze_cognitive_load, analyzer.py lines 298-352. -/
def analyzeCognitiveLoad (events : List KeystrokeEvent) : Option CognitiveLoadData :=
  let load_indicators := events.filterMap (·.cognitive_load_indicator)
  if load_indicators.isEmpty then none
  else
    let withLoad := events.filterMap
      (fun e => (e.cognitive_load_indicator).map (fun v => (e, v)))
    let hourly_loads :=
      (pyGroup (withLoad.map (fun p => (hourOf p.1.timestamp, p.2)))).map
        (fun g => (g.1, pyMean g.2))
    some
      { overall_cognitive_load := pyMean load_indicators
        cognitive_load_std :=
          if 1 < load_indicators.length then pySampleVariance load_indicators
          else 0
        high_load_events := load_indicators.countP (fun v => decide (7/10 < v))
        app_cognitive_load :=
          ((pyGroup (withLoad.map (fun p => (p.1.app_name, p.2)))).filter
            (fun g => 10 < g.2.length)).map (fun g => (g.1, pyMean g.2))
        hourly_cognitive_load := hourly_loads
        peak_load_hour :=
          if hourly_loads.isEmpty then none
          else (pyMaxBy (·.2) hourly_loads).map (·.1)
        lowest_load_hour :=
          if hourly_loads.isEmpty then none
          else (pyMinBy (·.2) hourly_loads).map (·.1) }

/-- Result of analyze_key_combinations, analyzer.py lines 714-721. -/
structure KeyCombinations where
  most_common_bigrams : List (String × Nat)
  same_finger_sequences : List (String × Nat)
  hand_alternation_rate : ℚ
  total_bigrams : Nat
  inefficient_sequences : Nat
  efficiency_score : ℚ
deriving DecidableEq, Repr

/-- Adjacent non-correction character bigrams, analyzer.py lines 674-679. -/
def charSequences (events : List KeystrokeEvent) : List String :=
  (List.zipWith (fun a b => (a, b)) events (events.drop 1)).filterMap
    (fun p =>
      if pyTruthyStr p.1.key_char ∧ pyTruthyStr p.2.key_char ∧
          ¬p.1.is_correction ∧ ¬p.2.is_correction then
        some (String.mk (p.1.key_char.data ++ p.2.key_char.data))
      else none)

/-- Same-finger adjacent character sequences, analyzer.py lines 684-692. -/
def sameFingerSequences (events : List KeystrokeEvent) : List String :=
  (List.zipWith (fun a b => (a, b)) events (events.drop 1)).filterMap
    (fun p =>
      if pyTruthyOptStr p.1.finger_assignment ∧
          pyTruthyOptStr p.2.finger_assignment ∧
          p.1.finger_assignment = p.2.finger_assignment ∧
          pyTruthyStr p.1.key_char ∧ pyTruthyStr p.2.key_char then
        some (String.mk (p.1.key_char.data ++ p.2.key_char.data))
      else none)

/-- Hand of a finger label, analyzer.py lines 706-707. -/
def handOf (finger : String) : String :=
  if pyInStr ("left") finger then "left"
  else if pyInStr ("right") finger then "right"
  else "thumb"

/-- analyze_key_combinations, analyzer.py lines 669-721. -/
def analyzeKeyCombinations (events : List KeystrokeEvent) : KeyCombinations :=
  let char_sequences := charSequences events
  let same_finger := sameFingerSequences events
  let pairs :=
    (List.zipWith (fun a b => (a, b)) events (events.drop 1)).filter
      (fun p => pyTruthyOptStr p.1.finger_assignment &&
        pyTruthyOptStr p.2.finger_assignment)
  let total_sequences := pairs.length
  let hand_switches := pairs.countP
    (fun p =>
      decide (handOf ((p.1.finger_assignment).getD "") ≠
        handOf ((p.2.finger_assignment).getD "")))
  { most_common_bigrams := pyMostCommon 20 char_sequences
    same_finger_sequences := pyMostCommon 15 same_finger
    hand_alternation_rate :=
      if 0 < total_sequences then
        (hand_switches : ℚ) / (total_sequences : ℚ) * 100
      else 0
    total_bigrams := char_sequences.length
    inefficient_sequences := same_finger.length
    efficiency_score :=
      if char_sequences.isEmpty then 0
      else
        max 0
          (100 - ((same_finger.length : ℚ) / (char_sequences.length : ℚ) * 100)) }

/-- Populated result of analyze_efficiency_metrics, analyzer.py lines
226-236; none models the empty dict returned for an empty event list.
The efficiency_quotient field is the source key efficiency_ratio (renamed
only in the Lean identifier); consistency_score follows the header note
on square roots (variance in place of standard deviation). -/
structure EfficiencyMetrics where
  overall_wpm : ℚ
  session_duration_minutes : ℚ
  app_specific_wpm : List (String × ℚ)
  burst_typing_percentage : ℚ
  flow_state_periods : List FlowPeriod
  efficiency_quotient : ℚ
  consistency_score : ℚ
  correction_percentage : ℚ
  peak_wpm : ℚ
deriving DecidableEq, Repr

/-- Per-application WPM over applications with more than fifty events and
a span above thirty seconds, analyzer.py lines 191-200. -/
def appSpecificWpm (events : List KeystrokeEvent) : List (String × ℚ) :=
  (pyGroup (events.map (fun e => (e.app_name, e)))).filterMap
    (fun g =>
      if 50 < g.2.length then
        let duration := segEndTs g.2 - segStartTs g.2
        if 30 < duration then some (g.1, calculate_wpm g.2 duration) else none
      else none)

/-- analyze_efficiency_metrics, analyzer.py lines 177-236. -/
def analyzeEfficiencyMetrics (cfg : Config) (events : List KeystrokeEvent) :
    Option EfficiencyMetrics :=
  if events.isEmpty then none
  else
    let active_duration_minutes := calculateActiveTypingDuration cfg events
    let overall_wpm := calculate_wpm events (active_duration_minutes * 60)
    let app_wpm := appSpecificWpm events
    let burst_count := events.countP (·.typing_burst)
    let flow_periods := detectFlowStates events cfg.flow_state_threshold
    let correction_count := events.countP (·.is_correction)
    let intervals :=
      (events.filter (fun e => decide (0 < e.time_since_last))).map
        (·.time_since_last)
    let consistency_score :=
      if intervals.isEmpty then 0
      else
        let mean_interval := pyMean intervals
        let var_interval :=
          if 1 < intervals.length then pySampleVariance intervals else 0
        if 0 < mean_interval then var_interval / mean_interval else 0
    some
      { overall_wpm := overall_wpm
        session_duration_minutes := active_duration_minutes
        app_specific_wpm := app_wpm
        burst_typing_percentage :=
          (burst_count : ℚ) / (events.length : ℚ) * 100
        flow_state_periods := flow_periods
        efficiency_quotient :=
          ((events.length : ℚ) - (correction_count : ℚ)) /
            (events.length : ℚ) * 100
        consistency_score := consistency_score
        correction_percentage :=
          (correction_count : ℚ) / (events.length : ℚ) * 100
        peak_wpm :=
          if app_wpm.isEmpty then overall_wpm else pyMaxQ (app_wpm.map (·.2)) }

/-- One entry of session_to_session_changes, analyzer.py lines 962-968. -/
structure SessionChange where
  from_session : Nat
  to_session : Nat
  wpm_change : ℚ
  accuracy_change : ℚ
  duration_change : ℚ
deriving DecidableEq, Repr

/-- Populated result of _calculate_session_trends, analyzer.py lines
954-970; consistency scores follow the header note on square roots. -/
structure SessionTrendsData where
  wpm_trend : String
  accuracy_trend : String
  avg_wpm_change_per_session : ℚ
  avg_accuracy_change_per_session : ℚ
  wpm_consistency_score : ℚ
  accuracy_consistency_score : ℚ
  session_to_session_changes : List SessionChange
deriving DecidableEq, Repr

/-- Result of _calculate_session_trends, analyzer.py lines 924-970: the
insufficient constructor is the trend_analysis stub dict for fewer than
two sessions. -/
inductive SessionTrends where
  | insufficient : SessionTrends
  | full : SessionTrendsData → SessionTrends
deriving DecidableEq, Repr

/-- _calculate_session_trends, analyzer.py lines 924-970. -/
def calculateSessionTrends (sessions : List SessionData) : SessionTrends :=
  if sessions.length < 2 then SessionTrends.insufficient
  else
    let diffs :=
      List.zipWith
        (fun prev curr =>
          (curr.wpm - prev.wpm, curr.accuracy_rate - prev.accuracy_rate,
            curr.duration_minutes - prev.duration_minutes))
        sessions (sessions.drop 1)
    let wpm_changes := diffs.map (·.1)
    let accuracy_changes := diffs.map (·.2.1)
    let trendOf (changes : List ℚ) : String :=
      if 0 < pyMean changes then "improving"
      else if pyMean changes < 0 then "declining"
      else "stable"
    SessionTrends.full
      { wpm_trend := trendOf wpm_changes
        accuracy_trend := trendOf accuracy_changes
        avg_wpm_change_per_session := pyMean wpm_changes
        avg_accuracy_change_per_session := pyMean accuracy_changes
        wpm_consistency_score :=
          1 / (pySampleVariance (sessions.map (·.wpm)) + 1/10)
        accuracy_consistency_score :=
          1 / (pySampleVariance (sessions.map (·.accuracy_rate)) + 1/10)
        session_to_session_changes :=
          (diffs.enum).map
            (fun p =>
              { from_session := p.1 + 1
                to_session := p.1 + 2
                wpm_change := p.2.1
                accuracy_change := p.2.2.1
                duration_change := p.2.2.2 }) }

/-- Populated result of analyze_sessions, analyzer.py lines 913-922. -/
structure SessionAnalysisData where
  sessions : List SessionData
  session_trends : SessionTrends
  total_sessions : Nat
  average_session_duration : ℚ
  best_session_wpm : ℚ
  worst_session_wpm : ℚ
  best_session_accuracy : ℚ
  worst_session_accuracy : ℚ
deriving DecidableEq, Repr

/-- Result of analyze_sessions, analyzer.py lines 899-922: the noSessions
constructor is the stub dict with empty sessions and trends. -/
inductive SessionAnalysis where
  | noSessions : SessionAnalysis
  | full : SessionAnalysisData → SessionAnalysis
deriving DecidableEq, Repr

/-- analyze_sessions, analyzer.py lines 899-922. -/
def analyzeSessions (cfg : Config) (events : List KeystrokeEvent) :
    SessionAnalysis :=
  let sessions := identifyTypingSessions cfg events
  if sessions.isEmpty then SessionAnalysis.noSessions
  else
    let numbered :=
      (sessions.enum).map (fun p => { p.2 with session_number := p.1 + 1 })
    SessionAnalysis.full
      { sessions := numbered
        session_trends := calculateSessionTrends numbered
        total_sessions := numbered.length
        average_session_duration := pyMean (numbered.map (·.duration_minutes))
        best_session_wpm := pyMaxQ (numbered.map (·.wpm))
        worst_session_wpm := pyMinQ (numbered.map (·.wpm))
        best_session_accuracy := pyMaxQ (numbered.map (·.accuracy_rate))
        worst_session_accuracy := pyMinQ (numbered.map (·.accuracy_rate)) }

/-- Single-quote character, written by code point so the source literals
containing quotes can be reproduced. -/
def sqStr : String := String.singleton (Char.ofNat 0x27)

/-- Concatenation of a list of strings (str join with empty separator). -/
def strCat (l : List String) : String := String.mk (l.map String.data).flatten

/-- One optimization opportunity, the dicts of analyzer.py lines 737-795. -/
structure Opportunity where
  type : String
  description : String
  potential_savings : String
  priority : String
deriving DecidableEq, Repr

/-- Priority rank, the priority_order dict of analyzer.py line 798 with
its default of 2 for unknown priorities. -/
def priorityRank (p : String) : Nat :=
  if p = "high" then 0 else if p = "medium" then 1 else if p = "low" then 2 else 2

/-- Digit-run value (the integer the regex group captures). -/
def digitsVal (l : List Char) : Nat :=
  l.foldl (fun acc c => acc * 10 + (c.toNat - 0x30)) 0

/-- First integer in a string, re.search of one-or-more digits: none when
the string holds no digit. -/
def extractFirstInt (s : String) : Option Nat :=
  let rest := s.data.dropWhile (fun c => !c.isDigit)
  if rest.isEmpty then none
  else some (digitsVal (rest.takeWhile Char.isDigit))

/-- Total-savings figure of analyzer.py lines 806-810: the sum of the
first integer of each potential_savings string that mentions
keystrokes. -/
def savingsSum (l : List Opportunity) : Nat :=
  (l.filterMap
    (fun o =>
      if pyInStr ("keystrokes") o.potential_savings then
        extractFirstInt o.potential_savings
      else none)).sum

/-- Shortcut opportunities for frequent long words, analyzer.py lines
734-742. -/
def wordShortcutOpportunities (wp : WordPatterns) : List Opportunity :=
  wp.word_efficiency.filterMap
    (fun p =>
      if p.2.potential_shortcuts && decide (5 ≤ p.2.frequency) then
        let savings : ℤ := (p.2.total_keystrokes : ℤ) - (p.2.frequency : ℤ) * 3
        some
          { type := "text_shortcut"
            description :=
              strCat
                [("Create shortcut for "), sqStr, p.1, sqStr, (" (typed "),
                 toString p.2.frequency, (" times)")]
            potential_savings := strCat [toString savings, (" keystrokes")]
            priority := if 10 < p.2.frequency then "high" else "medium" }
      else none)

/-- Same-finger sequence opportunities, analyzer.py lines 745-752. -/
def fingerOpportunities (kc : KeyCombinations) : List Opportunity :=
  (kc.same_finger_sequences.take 5).filterMap
    (fun p =>
      if 3 ≤ p.2 then
        some
          { type := "finger_optimization"
            description :=
              strCat
                [sqStr, p.1, sqStr, (" uses same finger "), toString p.2,
                 (" times - consider alternative layout")]
            potential_savings := "Reduce strain, increase speed"
            priority := "medium" }
      else none)

/-- Phrase shortcut opportunities, analyzer.py lines 755-765. -/
def phraseOpportunities (wp : WordPatterns) : List Opportunity :=
  (wp.most_frequent_bigrams.take 5).filterMap
    (fun p =>
      if 3 ≤ p.2 then
        let phrase_length := (p.1.data.filter (fun c => decide (c ≠ ' '))).length
        let savings : ℤ := (p.2 : ℤ) * ((phrase_length : ℤ) - 4)
        if 20 < savings then
          some
            { type := "phrase_shortcut"
              description :=
                strCat
                  [("Create shortcut for "), sqStr, p.1, sqStr, (" (used "),
                   toString p.2, (" times)")]
              potential_savings := strCat [toString savings, (" keystrokes")]
              priority := if 5 < p.2 then "high" else "medium" }
        else none
      else none)

/-- Hand-balance opportunity, analyzer.py lines 768-783.  The percentage
in the description is rendered as an exact rational instead of the
one-decimal float format of the source; the description text takes part
in no computation. -/
def handBalanceOpportunities (fu : FingerUsage) : List Opportunity :=
  let hb := fu.hand_balance
  let total := hb.left + hb.right + hb.thumbs
  if 0 < total then
    let left_percentage : ℚ := (hb.left : ℚ) / (total : ℚ) * 100
    let right_percentage : ℚ := (hb.right : ℚ) / (total : ℚ) * 100
    if 20 < |left_percentage - right_percentage| then
      let dominant := if right_percentage < left_percentage then "left" else "right"
      [{ type := "hand_balance"
         description :=
           strCat
             [("Hand usage imbalance: "), dominant, (" hand used "),
              toString (max left_percentage right_percentage), ("% of time")]
         potential_savings := "Better ergonomics and reduced fatigue"
         priority := "medium" }]
    else []
  else []

/-- Flow-state opportunity, analyzer.py lines 786-795 (same note on the
average-duration rendering inside the description). -/
def flowOpportunities (em : Option EfficiencyMetrics) : List Opportunity :=
  let periods := em.elim [] (·.flow_state_periods)
  if periods.isEmpty then []
  else
    let avg_flow_duration := pyMean (periods.map (·.duration_seconds))
    if avg_flow_duration < 120 then
      [{ type := "flow_optimization"
         description :=
           strCat
             [("Short flow states (avg "), toString avg_flow_duration,
              ("s) - minimize interruptions")]
         potential_savings := "Increase sustained productivity periods"
         priority := "high" }]
    else []

/-- Unsorted opportunity list of analyze_optimization_opportunities,
analyzer.py lines 727-795, in source append order. -/
def opportunitiesPreSort (cfg : Config) (events : List KeystrokeEvent) :
    List Opportunity :=
  wordShortcutOpportunities (analyzeWordPatterns events) ++
    fingerOpportunities (analyzeKeyCombinations events) ++
    phraseOpportunities (analyzeWordPatterns events) ++
    handBalanceOpportunities (analyzeFingerUsage events) ++
    flowOpportunities (analyzeEfficiencyMetrics cfg events)

/-- Result of analyze_optimization_opportunities, analyzer.py lines
801-811. -/
structure OptimizationOpportunities where
  total_opportunities : Nat
  high_priority : Nat
  medium_priority : Nat
  opportunities : List Opportunity
  estimated_total_savings : Nat
deriving DecidableEq, Repr

/-- analyze_optimization_opportunities, analyzer.py lines 723-811: the
list is stably sorted by priority rank and truncated to ten entries; the
savings figure is summed over the whole sorted (untruncated) list. -/
def analyzeOptimizationOpportunities (cfg : Config) (events : List KeystrokeEvent) :
    OptimizationOpportunities :=
  let opportunities :=
    (opportunitiesPreSort cfg events).mergeSort
      (fun a b => decide (priorityRank a.priority ≤ priorityRank b.priority))
  { total_opportunities := opportunities.length
    high_priority :=
      (opportunities.filter (fun o => decide (o.priority = "high"))).length
    medium_priority :=
      (opportunities.filter (fun o => decide (o.priority = "medium"))).length
    opportunities := opportunities.take 10
    estimated_total_savings := savingsSum opportunities }

/-- Outcome of the one network request of analyze_with_claude, analyzer.py
lines 861-897: an HTTP response (status code, text of the first content
block if any, raw body), a timeout, a requests error, or any other
exception.  This is an input to the run: the remote service is outside
the program. -/
inductive NetResult where
  | response (status_code : Nat) (content_first_text : Option String) (body : String)
  | netTimeout : NetResult
  | requestFailed (msg : String)
  | otherException (msg : String)
deriving DecidableEq, Repr

/-- Process environment read by analyze_with_claude: availability of the
requests library (module import, line 13-17) and the CLAUDE_API_KEY
environment variable (line 826). -/
structure ClaudeEnv where
  has_requests : Bool
  env_api_key : Option String
deriving DecidableEq, Repr

/-- The claude_insights section of the results: each constructor is one of
the status dicts analyze_with_claude returns (lines 816-897), plus the
no_text_segments stub of run_full_analysis lines 1223-1226 and pyNone for
the implicit None return on a 200 response with an empty content list
(the fall-through after line 880).  Constructor arguments carry exactly
the data the corresponding dict embeds beyond its fixed strings. -/
inductive ClaudeInsights where
  | noRequests : ClaudeInsights
  | disabled : ClaudeInsights
  | noApiKey : ClaudeInsights
  | success (claude_analysis : String) (model_used : String) (timestamp : String)
  | apiError (status_code : Nat) (error_details : String)
  | timedOut (timeout_seconds : Nat)
  | requestError (msg : String)
  | unexpectedError (msg : String)
  | pyNone : ClaudeInsights
  | noTextSegments : ClaudeInsights
deriving DecidableEq, Repr

/-- analyze_with_claude, analyzer.py lines 813-897, as a pure function of
the configuration, the process environment, the network outcome and the
wall clock at response time.  The prompt built from text_segments and
typing_stats (lines 832, 1129-1167) only leaves through the outbound
request and never enters the returned dict, so it is elided. -/
def analyzeWithClaude (cfg : Config) (env : ClaudeEnv) (net : NetResult)
    (nowIso : String) : ClaudeInsights :=
  if !env.has_requests then ClaudeInsights.noRequests
  else if !cfg.claude_enabled then ClaudeInsights.disabled
  else
    let api_key :=
      if pyTruthyOptStr env.env_api_key then (env.env_api_key).getD ""
      else cfg.claude_api_key
    if !pyTruthyStr api_key then ClaudeInsights.noApiKey
    else
      match net with
      | NetResult.response 200 (some text) _ =>
        ClaudeInsights.success text cfg.claude_model nowIso
      | NetResult.response 200 none _ => ClaudeInsights.pyNone
      | NetResult.response code _ body => ClaudeInsights.apiError code body
      | NetResult.netTimeout => ClaudeInsights.timedOut cfg.claude_timeout_seconds
      | NetResult.requestFailed m => ClaudeInsights.requestError m
      | NetResult.otherException m => ClaudeInsights.unexpectedError m

/-- Metadata section of run_full_analysis, analyzer.py lines 1178-1189.
analysis_timestamp is the wall clock at run start; the time-range bounds
store the raw timestamps whose isoformat rendering the source stores. -/
structure AnalysisMetadata where
  analysis_timestamp : String
  total_events : Nat
  time_range_start : ℚ
  time_range_end : ℚ
deriving DecidableEq, Repr

/-- Full result structure of run_full_analysis, analyzer.py lines
1177-1228. -/
structure AnalysisResults where
  metadata : AnalysisMetadata
  key_usage : KeyUsage
  hesitation_patterns : HesitationPatterns
  efficiency_metrics : Option EfficiencyMetrics
  finger_usage : FingerUsage
  cognitive_load : Option CognitiveLoadData
  error_patterns : ErrorPatterns
  word_patterns : WordPatterns
  key_combinations : KeyCombinations
  optimization_opportunities : OptimizationOpportunities
  session_analysis : SessionAnalysis
  claude_insights : ClaudeInsights
deriving DecidableEq, Repr

/-- run_full_analysis, analyzer.py lines 1169-1228, as a pure function of
the events, the configuration, the process environment, the two wall-clock
readings (run start, Claude response time) and the network outcome; none
models the empty dict returned when no data is loaded.  The typing_stats
dict of lines 1206-1213 feeds only the elided prompt. -/
def runFullAnalysis (cfg : Config) (env : ClaudeEnv) (events : List KeystrokeEvent)
    (nowIso : String) (claudeNowIso : String) (net : NetResult) :
    Option AnalysisResults :=
  if events.isEmpty then none
  else
    some
      { metadata :=
          { analysis_timestamp := nowIso
            total_events := events.length
            time_range_start := segStartTs events
            time_range_end := segEndTs events }
        key_usage := analyzeKeyUsage events
        hesitation_patterns := analyzeHesitationPatterns cfg events
        efficiency_metrics := analyzeEfficiencyMetrics cfg events
        finger_usage := analyzeFingerUsage events
        cognitive_load := analyzeCognitiveLoad events
        error_patterns := analyzeErrorPatterns events
        word_patterns := analyzeWordPatterns events
        key_combinations := analyzeKeyCombinations events
        optimization_opportunities := analyzeOptimizationOpportunities cfg events
        session_analysis := analyzeSessions cfg events
        claude_insights :=
          if (analyzeWordPatterns events).text_segments.isEmpty then
            ClaudeInsights.noTextSegments
          else analyzeWithClaude cfg env net claudeNowIso }

/-- Default configuration: every ConfigManager.get call falls back to its
call-site default (no config file). -/
def defaultConfig : Config := {}

/-- Default claude environment for the concrete runs below. -/
def defaultClaudeEnv : ClaudeEnv :=
  { has_requests := true, env_api_key := some "k" }

/-- Event constructor for concrete scenarios: a printable character
keystroke. -/
def mkCharEv (ts : ℚ) (c : String) : KeystrokeEvent :=
  { timestamp := ts, key_code := 0, key_char := c, key_name := c,
    dwell_time := 0, time_since_last := 0, app_name := "Editor",
    window_title := "", session_id := "", is_correction := false,
    pause_before := 0, typing_burst := false }

/-- Event constructor for concrete scenarios: a backspace correction. -/
def mkBackspaceEv (ts : ℚ) : KeystrokeEvent :=
  { timestamp := ts, key_code := 0, key_char := "", key_name := "backspace",
    dwell_time := 0, time_since_last := 0, app_name := "Editor",
    window_title := "", session_id := "", is_correction := true,
    pause_before := 0, typing_burst := false }

/-- Claim C1 counterexample input: two events separated by a 2000 s gap,
above the default 1800 s long-pause threshold. -/
def c1Events : List KeystrokeEvent := [mkCharEv 0 "a", mkCharEv 2000 "b"]

/-- Claim C2 witness input: three flow-satisfying events. -/
def c2Events : List KeystrokeEvent :=
  [{ mkCharEv 0 "a" with typing_burst := true },
   { mkCharEv 1 "b" with typing_burst := true },
   { mkCharEv 2 "c" with typing_burst := true }]

/-- Claim C4 witness input: a two-event session whose single 40 s gap
exceeds the 30 s intra-session cutoff, exercising the fallback branch. -/
def c4Events : List KeystrokeEvent := [mkCharEv 0 "", mkCharEv 40 ""]

/-- Claim C6 scenario A: hello world typed character by character with a
trailing space after each word. -/
def c6EventsA : List KeystrokeEvent :=
  [mkCharEv 0 "h", mkCharEv 1 "e", mkCharEv 2 "l", mkCharEv 3 "l",
   mkCharEv 4 "o", mkCharEv 5 " ", mkCharEv 6 "w", mkCharEv 7 "o",
   mkCharEv 8 "r", mkCharEv 9 "l", mkCharEv 10 "d", mkCharEv 11 " "]

/-- Claim C6 scenario B: helllo, two backspaces, then o and a space. -/
def c6EventsB : List KeystrokeEvent :=
  [mkCharEv 0 "h", mkCharEv 1 "e", mkCharEv 2 "l", mkCharEv 3 "l",
   mkCharEv 4 "l", mkCharEv 5 "o", mkBackspaceEv 6, mkBackspaceEv 7,
   mkCharEv 8 "o", mkCharEv 9 " "]

/-- Default key input for total indexing in claim C7. -/
def defaultKeyInput : KeyInput :=
  { key_char := "", key_name := "", is_correction := false }

/-- Default correction record for total indexing in claim C7. -/
def defaultCorrectionData : CorrectionData :=
  { is_correction := false, correction_length := 0, corrected_text := "",
    likely_typo := false, correction_type := "none", typo_pattern := none }

/-- Claim C7 witness input: one letter followed by two corrections. -/
def c7Inputs : List KeyInput :=
  [{ key_char := "a", key_name := "a", is_correction := false },
   { key_char := "", key_name := "backspace", is_correction := true },
   { key_char := "", key_name := "backspace", is_correction := true }]

/-- Claim C9 witness input: the three letters t, e, h. -/
def c9Inputs : List KeyInput :=
  [{ key_char := "t", key_name := "t", is_correction := false },
   { key_char := "e", key_name := "e", is_correction := false },
   { key_char := "h", key_name := "h", is_correction := false }]

/-- Claim C8 witness input: twenty keystrokes of the key a in one
application within one hour, each with a one-second recorded pause. -/
def c8Events : List KeystrokeEvent :=
  (List.range 20).map
    (fun n => { mkCharEv (n : ℚ) "a" with app_name := "A", pause_before := 1 })

/-- Claim C3 counterexample input: three events typing ab and a space, so
text segments are non-empty and the Claude call is reached. -/
def c3Events : List KeystrokeEvent :=
  [mkCharEv 0 "a", mkCharEv 1 "b", mkCharEv 2 " "]

/-- Claim C10 witness input: six distinct seven-letter words, each typed
five times with a trailing space.  This yields six word-shortcut
opportunities and five phrase-shortcut opportunities, eleven
keystroke-savings entries in all, one more than the returned top ten. -/
def c10Words : List String :=
  ["abcdefg", "abcdefh", "abcdefi", "abcdefj", "abcdefk", "abcdefl"]

/-- Claim C10 witness event stream. -/
def c10Events : List KeystrokeEvent :=
  c10Words.flatMap
    (fun w =>
      (List.range 5).flatMap
        (fun _ =>
          (w.data.map (fun c => mkCharEv 0 (String.singleton c))) ++
            [mkCharEv 0 " "]))

/- Theorems.  Helper lemmas come first, then one theorem per claim with
its witness or counterexample. -/

theorem detectFlowGo_counts (events : List KeystrokeEvent) (minK : Nat) :
    ∀ (rest : List KeystrokeEvent) (i : Nat) (start : Option Nat) (count : Nat)
      (acc : List FlowPeriod),
      rest = events.drop i → i ≤ events.length →
      (start = none → count = 0) →
      (∀ s, start = some s → count = i - s ∧ s ≤ i) →
      (∀ p ∈ acc, minK ≤ p.keystroke_count) →
      ∀ p ∈ detectFlowGo events minK rest i start count acc,
        minK ≤ p.keystroke_count := by
  intro rest
  induction rest with
  | nil =>
    intro i start count acc hdrop hle _hnone hsome hacc p hp
    have hlen : events.length ≤ i := by
      have := congrArg List.length hdrop
      simp [List.length_drop] at this
      omega
    cases start with
    | none =>
      simp only [detectFlowGo] at hp
      exact hacc p hp
    | some s =>
      simp only [detectFlowGo] at hp
      by_cases hk : minK ≤ count
      · simp only [if_pos hk, List.mem_append, List.mem_singleton] at hp
        rcases hp with hp | hp
        · exact hacc p hp
        · subst hp
          have hcs := hsome s rfl
          simp only [endFlowPeriod, List.length_drop]
          omega
      · simp only [if_neg hk] at hp
        exact hacc p hp
  | cons e rest ih =>
    intro i start count acc hdrop hle hnone hsome hacc p hp
    have hlt : i < events.length := by
      have := congrArg List.length hdrop
      simp [List.length_drop] at this
      omega
    have hdrop2 : rest = events.drop (i + 1) := by
      rw [← List.drop_drop 1 i events, ← hdrop]
      simp
    simp only [detectFlowGo] at hp
    by_cases hf : isFlowing e = true
    · rw [if_pos hf] at hp
      cases start with
      | none =>
        have hc0 : count = 0 := hnone rfl
        refine ih (i + 1) (some ((none : Option Nat).getD i)) (count + 1) acc
          hdrop2 (by omega) (by simp) ?_ hacc p hp
        intro s hs
        simp [Option.getD] at hs
        omega
      | some s =>
        have hcs := hsome s rfl
        refine ih (i + 1) (some ((some s).getD i)) (count + 1) acc
          hdrop2 (by omega) (by simp) ?_ hacc p hp
        intro t ht
        simp [Option.getD] at ht
        subst ht
        omega
    · rw [if_neg hf] at hp
      refine ih (i + 1) none 0 _ hdrop2 (by omega) (fun _ => rfl)
        (by intro s hs; exact absurd hs (by simp)) ?_ p hp
      intro q hq
      cases start with
      | none => exact hacc q hq
      | some s =>
        simp only at hq
        by_cases hk : minK ≤ count
        · simp only [if_pos hk, List.mem_append, List.mem_singleton] at hq
          rcases hq with hq | hq
          · exact hacc q hq
          · subst hq
            have hcs := hsome s rfl
            simp only [midFlowPeriod, List.length_take, List.length_drop]
            omega
        · simp only [if_neg hk] at hq
          exact hacc q hq

theorem detectFlowGo_flowing (events : List KeystrokeEvent) (minK : Nat) :
    ∀ (rest : List KeystrokeEvent) (i s count : Nat) (acc : List FlowPeriod),
      (∀ e ∈ rest, isFlowing e = true) →
      detectFlowGo events minK rest i (some s) count acc =
        detectFlowGo events minK [] (i + rest.length) (some s)
          (count + rest.length) acc := by
  intro rest
  induction rest with
  | nil => intro i s count acc _; simp
  | cons e rest ih =>
    intro i s count acc hall
    have he : isFlowing e = true := hall e (by simp)
    have hrest : ∀ x ∈ rest, isFlowing x = true := fun x hx => hall x (by simp [hx])
    simp only [detectFlowGo, if_pos he, Option.getD]
    rw [ih (i + 1) s (count + 1) acc hrest]
    simp only [List.length_cons]
    rw [show i + 1 + rest.length = i + (rest.length + 1) from by omega,
      show count + 1 + rest.length = count + (rest.length + 1) from by omega]
    simp only [detectFlowGo]

/-- Claim C2: _detect_flow_states never emits a flow period with fewer
than min_keystrokes keystrokes; and a non-empty stream consisting
entirely of flow-satisfying events of length at least min_keystrokes
yields exactly one flow period whose keystroke count is the whole stream
length (the end-of-stream flush). -/
theorem C2_flow_detector (events : List KeystrokeEvent) (minK : Nat) :
    (∀ p ∈ detectFlowStates events minK, minK ≤ p.keystroke_count) ∧
    (events ≠ [] → (∀ e ∈ events, isFlowing e = true) → minK ≤ events.length →
      detectFlowStates events minK = [endFlowPeriod events 0] ∧
        (endFlowPeriod events 0).keystroke_count = events.length) := by
  constructor
  · intro p hp
    refine detectFlowGo_counts events minK events 0 none 0 []
      (by simp) (by omega) (fun _ => rfl)
      (by intro s hs; exact absurd hs (by simp)) (by simp) p hp
  · intro hne hall hmin
    cases events with
    | nil => exact absurd rfl hne
    | cons e rest =>
      have he : isFlowing e = true := hall e (by simp)
      have hrest : ∀ x ∈ rest, isFlowing x = true := fun x hx => hall x (by simp [hx])
      constructor
      · show detectFlowGo (e :: rest) minK (e :: rest) 0 none 0 [] = _
        simp only [detectFlowGo, if_pos he, Option.getD]
        rw [detectFlowGo_flowing (e :: rest) minK rest 1 0 1 [] hrest]
        simp only [detectFlowGo, List.length_cons] at hmin ⊢
        rw [if_pos (by omega)]
        simp
      · simp [endFlowPeriod]

/-- Claim C2 witness: three flow-satisfying events with a threshold of
two yield exactly the single end-flushed period covering all three. -/
theorem C2_flow_detector_witness :
    detectFlowStates c2Events 2 = [endFlowPeriod c2Events 0] ∧
      (endFlowPeriod c2Events 0).keystroke_count = 3 := by
  have h := (C2_flow_detector c2Events 2).2 (by with_unfolding_all decide)
    (by with_unfolding_all decide) (by with_unfolding_all decide)
  exact ⟨h.1, h.2⟩

theorem sessionLoop_eq_filter (th : ℚ) :
    ∀ (rest : List KeystrokeEvent) (prev : KeystrokeEvent)
      (current : List KeystrokeEvent) (acc : List (List KeystrokeEvent)),
      sessionLoop th prev current acc rest =
        acc ++ (gapSplitGo th prev current rest).filter
          (fun s => decide (1 < s.length)) := by
  intro rest
  induction rest with
  | nil =>
    intro prev current acc
    simp only [sessionLoop, gapSplitGo, List.filter]
    split
    · next h => simp [List.filter, h]
    · next h => simp [List.filter, h]
  | cons e rest ih =>
    intro prev current acc
    simp only [sessionLoop, gapSplitGo]
    by_cases hgap : th < e.timestamp - prev.timestamp
    · rw [if_pos hgap, if_pos hgap, ih, List.filter]
      by_cases hlen : 1 < current.length
      · simp [hlen, List.append_assoc]
      · simp [hlen]
    · rw [if_neg hgap, if_neg hgap, ih]

theorem gapSplitGo_flatten (th : ℚ) :
    ∀ (rest : List KeystrokeEvent) (prev : KeystrokeEvent)
      (current : List KeystrokeEvent),
      (gapSplitGo th prev current rest).flatten = current ++ rest := by
  intro rest
  induction rest with
  | nil => intro prev current; simp [gapSplitGo]
  | cons e rest ih =>
    intro prev current
    simp only [gapSplitGo]
    by_cases hgap : th < e.timestamp - prev.timestamp
    · rw [if_pos hgap]
      simp [ih]
    · rw [if_neg hgap, ih]
      simp

theorem gapSplitGo_ne_nil (th : ℚ) :
    ∀ (rest : List KeystrokeEvent) (prev : KeystrokeEvent)
      (current : List KeystrokeEvent), current ≠ [] →
      ∀ s ∈ gapSplitGo th prev current rest, s ≠ [] := by
  intro rest
  induction rest with
  | nil =>
    intro prev current hcur s hs
    simp [gapSplitGo] at hs
    simpa [hs] using hcur
  | cons e rest ih =>
    intro prev current hcur s hs
    simp only [gapSplitGo] at hs
    by_cases hgap : th < e.timestamp - prev.timestamp
    · rw [if_pos hgap] at hs
      rcases List.mem_cons.mp hs with h | h
      · simpa [h] using hcur
      · exact ih e [e] (by simp) s h
    · rw [if_neg hgap] at hs
      exact ih e (current ++ [e]) (by simp) s hs

theorem flatten_sublist {α : Type} {l1 l2 : List (List α)} (h : l1.Sublist l2) :
    l1.flatten.Sublist l2.flatten := by
  induction h with
  | slnil => simp
  | cons a _ ih =>
    simp only [List.flatten_cons]
    exact ih.trans (List.sublist_append_right a _)
  | cons₂ a _ ih =>
    simp only [List.flatten_cons]
    exact ih.append_left a

theorem chain_of_sorted_flatten :
    ∀ (segs : List (List KeystrokeEvent)),
      (∀ s ∈ segs, s ≠ []) →
      List.Pairwise (fun a b : KeystrokeEvent => a.timestamp ≤ b.timestamp)
        segs.flatten →
      List.Chain' (fun s t => segEndTs s ≤ segStartTs t) segs := by
  intro segs
  induction segs with
  | nil => intro _ _; simp
  | cons s segs ih =>
    intro hne hpw
    cases segs with
    | nil => exact List.chain'_singleton s
    | cons t rest =>
      rw [List.flatten_cons, List.pairwise_append] at hpw
      obtain ⟨_, hpw2, hcross⟩ := hpw
      refine List.chain'_cons.mpr ⟨?_, ih (fun x hx => hne x (by simp [hx])) hpw2⟩
      have hs : s ≠ [] := hne s (by simp)
      have ht : t ≠ [] := hne t (by simp)
      obtain ⟨a, ha⟩ := Option.isSome_iff_exists.mp (List.getLast?_isSome.mpr hs)
      obtain ⟨b, hb⟩ := Option.isSome_iff_exists.mp
        (by simpa [List.head?_isSome] using ht : t.head?.isSome = true)
      have hamem : a ∈ s := List.mem_of_mem_getLast? ha
      have hbmem : b ∈ (t :: rest).flatten :=
        List.mem_flatten.mpr ⟨t, by simp, List.mem_of_mem_head? hb⟩
      have hle := hcross a hamem b hbmem
      simpa [segEndTs, segStartTs, ha, hb] using hle

/-- Claim C1 (corrected): the segments _identify_typing_sessions keeps are
exactly the spec-level gap-partition segments that have at least two
events; the gap partition itself concatenates back to the whole input (no
event dropped or duplicated before the two-event filter); and under
non-decreasing timestamps consecutive kept sessions satisfy
end-timestamp at most next start-timestamp.  The original claim fails
because segments with fewer than two events are dropped (see the
counterexample). -/
theorem C1_session_partition (cfg : Config) (events : List KeystrokeEvent)
    (h : List.Chain' (fun a b : KeystrokeEvent => a.timestamp ≤ b.timestamp)
      events) :
    identifySessionSegments cfg events =
      (gapSplit (sessionGapThreshold cfg) events).filter
        (fun s => decide (1 < s.length)) ∧
    (gapSplit (sessionGapThreshold cfg) events).flatten = events ∧
    List.Chain' (fun s t => segEndTs s ≤ segStartTs t)
      (identifySessionSegments cfg events) := by
  haveI : IsTrans KeystrokeEvent (fun a b => a.timestamp ≤ b.timestamp) :=
    ⟨fun _ _ _ h1 h2 => le_trans h1 h2⟩
  have hpw : List.Pairwise (fun a b : KeystrokeEvent => a.timestamp ≤ b.timestamp)
      events := List.chain'_iff_pairwise.mp h
  have heq : identifySessionSegments cfg events =
      (gapSplit (sessionGapThreshold cfg) events).filter
        (fun s => decide (1 < s.length)) := by
    cases events with
    | nil => simp [identifySessionSegments, gapSplit]
    | cons e rest =>
      cases rest with
      | nil =>
        simp [identifySessionSegments, gapSplit, gapSplitGo, List.filter]
      | cons f rest2 =>
        show sessionLoop (sessionGapThreshold cfg) e [e] [] (f :: rest2) = _
        rw [sessionLoop_eq_filter]
        simp [gapSplit]
  have hflat : (gapSplit (sessionGapThreshold cfg) events).flatten = events := by
    cases events with
    | nil => simp [gapSplit]
    | cons e rest => simp [gapSplit, gapSplitGo_flatten]
  refine ⟨heq, hflat, ?_⟩
  rw [heq]
  refine chain_of_sorted_flatten _ ?_ ?_
  · intro s hs
    have hs2 := (List.filter_sublist (gapSplit (sessionGapThreshold cfg)
      events)).subset hs
    cases events with
    | nil => simp [gapSplit] at hs2
    | cons e rest =>
      exact gapSplitGo_ne_nil (sessionGapThreshold cfg) rest e [e] (by simp) s hs2
  · have hsub := flatten_sublist (List.filter_sublist
      (p := fun s => decide (1 < s.length))
      (gapSplit (sessionGapThreshold cfg) events))
    rw [hflat] at hsub
    exact hpw.sublist hsub

/-- Claim C1 witness: a concrete ten-event run with one-second gaps forms
one kept segment, the partition concatenates to the input, and the
ordering property holds. -/
theorem C1_session_partition_witness :
    identifySessionSegments defaultConfig c6EventsB =
      (gapSplit (sessionGapThreshold defaultConfig) c6EventsB).filter
        (fun s => decide (1 < s.length)) ∧
    (gapSplit (sessionGapThreshold defaultConfig) c6EventsB).flatten = c6EventsB ∧
    List.Chain' (fun s t => segEndTs s ≤ segStartTs t)
      (identifySessionSegments defaultConfig c6EventsB) :=
  C1_session_partition defaultConfig c6EventsB
    (by
      haveI : IsTrans KeystrokeEvent (fun a b => a.timestamp ≤ b.timestamp) :=
        ⟨fun _ _ _ h1 h2 => le_trans h1 h2⟩
      rw [List.chain'_iff_pairwise]
      with_unfolding_all decide)

/-- Claim C1 counterexample: two events 2000 s apart (above the default
1800 s threshold) produce no session at all, so the union of session
members is empty and does not equal the non-empty input. -/
theorem C1_session_partition_counterexample :
    (identifySessionSegments defaultConfig c1Events).flatten = [] ∧
      identifyTypingSessions defaultConfig c1Events = [] ∧ c1Events ≠ [] := by
  refine ⟨by with_unfolding_all decide, by with_unfolding_all decide, by decide⟩

theorem eventGaps_sum_cons :
    ∀ (l : List KeystrokeEvent) (e : KeystrokeEvent),
      (eventGaps (e :: l)).sum = segEndTs (e :: l) - e.timestamp := by
  intro l
  induction l with
  | nil => intro e; simp [eventGaps, segEndTs]
  | cons f rest ih =>
    intro e
    have h1 : eventGaps (e :: f :: rest) =
        (f.timestamp - e.timestamp) :: eventGaps (f :: rest) := by
      simp [eventGaps]
    have h2 : segEndTs (e :: f :: rest) = segEndTs (f :: rest) := by
      simp [segEndTs, List.getLast?_cons_cons]
    rw [h1, List.sum_cons, ih f, h2]
    ring

theorem eventGaps_nonneg :
    ∀ (l : List KeystrokeEvent),
      List.Chain' (fun a b : KeystrokeEvent => a.timestamp ≤ b.timestamp) l →
      ∀ g ∈ eventGaps l, 0 ≤ g := by
  intro l
  induction l with
  | nil => intro _ g hg; simp [eventGaps] at hg
  | cons e rest ih =>
    intro h g hg
    cases rest with
    | nil => simp [eventGaps] at hg
    | cons f rest2 =>
      rw [List.chain'_cons] at h
      have h1 : eventGaps (e :: f :: rest2) =
          (f.timestamp - e.timestamp) :: eventGaps (f :: rest2) := by
        simp [eventGaps]
      rw [h1] at hg
      rcases List.mem_cons.mp hg with hg | hg
      · subst hg; linarith [h.1]
      · exact ih h.2 g hg

theorem filteredActive_le_total (l : List KeystrokeEvent) (e : KeystrokeEvent)
    (h : List.Chain' (fun a b : KeystrokeEvent => a.timestamp ≤ b.timestamp)
      (e :: l)) :
    ((eventGaps (e :: l)).filter (fun g => decide (g ≤ 30))).sum ≤
      segEndTs (e :: l) - segStartTs (e :: l) := by
  have hsub := List.filter_sublist (p := fun g => decide (g ≤ 30))
    (eventGaps (e :: l))
  have hle := hsub.sum_le_sum (eventGaps_nonneg (e :: l) h)
  rw [eventGaps_sum_cons l e] at hle
  simpa [segStartTs] using hle

/-- Claim C4: for a session built by _analyze_session from a
timestamp-non-decreasing run, the active duration never exceeds the raw
duration, in both the filtered and the ten-percent-fallback branch. -/
theorem C4_active_le_raw (session_events : List KeystrokeEvent)
    (h : List.Chain' (fun a b : KeystrokeEvent => a.timestamp ≤ b.timestamp)
      session_events) :
    ∀ s, analyzeSession session_events = some s →
      s.active_duration_minutes ≤ s.total_duration_minutes ∧
        s.duration_seconds ≤ s.end_time - s.start_time := by
  intro s hs
  by_cases hlen : session_events.length < 2
  · simp [analyzeSession, if_pos hlen] at hs
  · cases session_events with
    | nil => simp at hlen
    | cons e rest =>
      have htot : 0 ≤ segEndTs (e :: rest) - segStartTs (e :: rest) := by
        have := filteredActive_le_total rest e h
        have hnn : 0 ≤ ((eventGaps (e :: rest)).filter
            (fun g => decide (g ≤ 30))).sum := by
          apply List.sum_nonneg
          intro g hg
          exact eventGaps_nonneg (e :: rest) h g
            ((List.filter_sublist _).subset hg)
        linarith
      have hact : (if ((eventGaps (e :: rest)).filter
            (fun g => decide (g ≤ 30))).sum <
            (segEndTs (e :: rest) - segStartTs (e :: rest)) * (1 / 10) then
          segEndTs (e :: rest) - segStartTs (e :: rest)
        else ((eventGaps (e :: rest)).filter
          (fun g => decide (g ≤ 30))).sum) ≤
          segEndTs (e :: rest) - segStartTs (e :: rest) := by
        split
        · exact le_refl _
        · exact filteredActive_le_total rest e h
      simp only [analyzeSession, if_neg hlen, Option.some_inj] at hs
      subst hs
      constructor
      · simp only
        rw [div_le_div_iff_of_pos_right (by norm_num : (0 : ℚ) < 60)]
        exact hact
      · simpa only using hact

/-- Claim C4 witness: the two-event session with one 40 s gap takes the
fallback branch (filtered active time 0 is below ten percent of the raw
span) and still satisfies active at most raw. -/
theorem C4_active_le_raw_witness :
    ((analyzeSession c4Events).map
        (fun s => decide (s.active_duration_minutes ≤ s.total_duration_minutes ∧
          s.duration_seconds ≤ s.end_time - s.start_time))) = some true := by
  have h := C4_active_le_raw c4Events
    (by simp [c4Events, List.chain'_cons, mkCharEv])
  have hs : analyzeSession c4Events = some
      { session_number := 0, start_time := 0, end_time := 40,
        total_duration_minutes := 2/3, active_duration_minutes := 2/3,
        duration_minutes := 2/3, duration_seconds := 40, total_keystrokes := 2,
        character_count := 0, word_count := 0, wpm := 0, error_rate := 0,
        accuracy_rate := 100, corrections := 0, primary_app := "Editor",
        apps_used := ["Editor"], avg_keystroke_interval := 0,
        typing_rhythm_consistency := 0 } := by
    with_unfolding_all decide
  rw [hs]
  have := h _ hs
  simp only [Option.map]
  rw [decide_eq_true this]

theorem wordShortcut_priority (wp : WordPatterns) :
    ∀ o ∈ wordShortcutOpportunities wp,
      o.priority = "high" ∨ o.priority = "medium" := by
  intro o ho
  simp only [wordShortcutOpportunities, List.mem_filterMap] at ho
  obtain ⟨p, _, hfa⟩ := ho
  split at hfa
  · rw [Option.some_inj] at hfa
    subst hfa
    simp only
    split
    · exact Or.inl rfl
    · exact Or.inr rfl
  · exact absurd hfa (by simp)

theorem fingerOpp_priority (kc : KeyCombinations) :
    ∀ o ∈ fingerOpportunities kc,
      o.priority = "high" ∨ o.priority = "medium" := by
  intro o ho
  simp only [fingerOpportunities, List.mem_filterMap] at ho
  obtain ⟨p, _, hfa⟩ := ho
  split at hfa
  · rw [Option.some_inj] at hfa
    subst hfa
    exact Or.inr rfl
  · exact absurd hfa (by simp)

theorem phraseOpp_priority (wp : WordPatterns) :
    ∀ o ∈ phraseOpportunities wp,
      o.priority = "high" ∨ o.priority = "medium" := by
  intro o ho
  simp only [phraseOpportunities, List.mem_filterMap] at ho
  obtain ⟨p, _, hfa⟩ := ho
  split at hfa
  · split at hfa
    · rw [Option.some_inj] at hfa
      subst hfa
      simp only
      split
      · exact Or.inl rfl
      · exact Or.inr rfl
    · exact absurd hfa (by simp)
  · exact absurd hfa (by simp)

theorem handBalanceOpp_priority (fu : FingerUsage) :
    ∀ o ∈ handBalanceOpportunities fu,
      o.priority = "high" ∨ o.priority = "medium" := by
  intro o ho
  simp only [handBalanceOpportunities] at ho
  split at ho
  · split at ho
    · rcases List.mem_singleton.mp ho with rfl
      exact Or.inr rfl
    · simp at ho
  · simp at ho

theorem flowOpp_priority (em : Option EfficiencyMetrics) :
    ∀ o ∈ flowOpportunities em,
      o.priority = "high" ∨ o.priority = "medium" := by
  intro o ho
  simp only [flowOpportunities] at ho
  split at ho
  · simp at ho
  · split at ho
    · rcases List.mem_singleton.mp ho with rfl
      exact Or.inl rfl
    · simp at ho

theorem opportunitiesPreSort_priority (cfg : Config)
    (events : List KeystrokeEvent) :
    ∀ o ∈ opportunitiesPreSort cfg events,
      o.priority = "high" ∨ o.priority = "medium" := by
  intro o ho
  simp only [opportunitiesPreSort, List.mem_append] at ho
  rcases ho with (((h | h) | h) | h) | h
  · exact wordShortcut_priority _ o h
  · exact fingerOpp_priority _ o h
  · exact phraseOpp_priority _ o h
  · exact handBalanceOpp_priority _ o h
  · exact flowOpp_priority _ o h

/-- Claim C5: analyze_optimization_opportunities returns at most ten
opportunities, every returned priority is high or medium, and the
returned list is sorted with all high entries before all medium
entries (non-decreasing priority rank). -/
theorem C5_opportunity_bounds (cfg : Config) (events : List KeystrokeEvent) :
    (analyzeOptimizationOpportunities cfg events).opportunities.length ≤ 10 ∧
    (∀ o ∈ (analyzeOptimizationOpportunities cfg events).opportunities,
      o.priority = "high" ∨ o.priority = "medium") ∧
    List.Pairwise
      (fun a b => priorityRank a.priority ≤ priorityRank b.priority)
      (analyzeOptimizationOpportunities cfg events).opportunities := by
  have htrans : ∀ a b c : Opportunity,
      (decide (priorityRank a.priority ≤ priorityRank b.priority)) = true →
      (decide (priorityRank b.priority ≤ priorityRank c.priority)) = true →
      (decide (priorityRank a.priority ≤ priorityRank c.priority)) = true := by
    intro a b c h1 h2
    simp only [decide_eq_true_eq] at h1 h2 ⊢
    omega
  have htotal : ∀ a b : Opportunity,
      ((decide (priorityRank a.priority ≤ priorityRank b.priority)) ||
        (decide (priorityRank b.priority ≤ priorityRank a.priority))) = true := by
    intro a b
    simp only [Bool.or_eq_true, decide_eq_true_eq]
    omega
  refine ⟨?_, ?_, ?_⟩
  · simp only [analyzeOptimizationOpportunities]
    exact List.length_take_le 10 _
  · intro o ho
    simp only [analyzeOptimizationOpportunities] at ho
    have h1 := List.take_subset 10 _ ho
    have h2 := List.mem_mergeSort.mp h1
    exact opportunitiesPreSort_priority cfg events o h2
  · simp only [analyzeOptimizationOpportunities]
    have hs := List.sorted_mergeSort htrans htotal (opportunitiesPreSort cfg events)
    have hp : List.Pairwise
        (fun a b : Opportunity =>
          priorityRank a.priority ≤ priorityRank b.priority)
        ((opportunitiesPreSort cfg events).mergeSort
          (fun a b => decide (priorityRank a.priority ≤ priorityRank b.priority))) :=
      hs.imp (fun h => of_decide_eq_true h)
    exact hp.sublist (List.take_sublist 10 _)

/-- Claim C5 witness: on the concrete c10Events input the returned list
has at most ten entries and a concrete member has priority high or
medium. -/
theorem C5_opportunity_bounds_witness :
    (analyzeOptimizationOpportunities defaultConfig c10Events).opportunities.length
        ≤ 10 ∧
      (({ type := "text_shortcut"
          description :=
            strCat
              [("Create shortcut for "), sqStr, ("abcdefg"), sqStr,
               (" (typed 5 times)")]
          potential_savings := "20 keystrokes"
          priority := "medium" } : Opportunity).priority = "high" ∨
        ({ type := "text_shortcut"
           description :=
             strCat
               [("Create shortcut for "), sqStr, ("abcdefg"), sqStr,
                (" (typed 5 times)")]
           potential_savings := "20 keystrokes"
           priority := "medium" } : Opportunity).priority = "medium") :=
  ⟨(C5_opportunity_bounds defaultConfig c10Events).1,
    (C5_opportunity_bounds defaultConfig c10Events).2.1 _
      (by with_unfolding_all decide)⟩

theorem detectCorrection_flag (st : KeyloggerState) (inp : KeyInput) :
    ((detectCorrectionSequence st inp).2).last_key_was_correction =
      inp.is_correction := by
  cases hic : inp.is_correction <;>
    simp only [detectCorrectionSequence, hic, Bool.false_eq_true, if_false,
      if_true] <;>
    split <;> (try split) <;> rfl

theorem processFrom_getD :
    ∀ (inputs : List KeyInput) (st : KeyloggerState) (i : Nat),
      i < inputs.length →
      (processKeyloggerFrom st inputs).getD i defaultCorrectionData =
        (detectCorrectionSequence
          ((inputs.take i).foldl
            (fun s inp => (detectCorrectionSequence s inp).2) st)
          (inputs.getD i defaultKeyInput)).1 := by
  intro inputs
  induction inputs with
  | nil => intro st i hi; simp at hi
  | cons inp rest ih =>
    intro st i hi
    cases i with
    | zero => simp [processKeyloggerFrom, List.getD_cons_zero]
    | succ j =>
      have hj : j < rest.length := by simpa using hi
      simp only [processKeyloggerFrom, List.getD_cons_succ, List.take_succ_cons,
        List.foldl_cons]
      exact ih (detectCorrectionSequence st inp).2 j hj

theorem stateAfter_succ (inputs : List KeyInput) (k : Nat)
    (hk : k < inputs.length) :
    keyloggerStateAfter inputs (k + 1) =
      (detectCorrectionSequence (keyloggerStateAfter inputs k)
        (inputs.getD k defaultKeyInput)).2 := by
  unfold keyloggerStateAfter
  have htake : inputs.take (k + 1) =
      inputs.take k ++ [inputs.getD k defaultKeyInput] := by
    rw [List.take_succ]
    congr
    rw [List.getElem?_eq_getElem hk]
    simp [List.getD, List.getElem?_eq_getElem hk]
  rw [htake, List.foldl_append]
  simp

theorem stateAfter_flag (inputs : List KeyInput) (i : Nat)
    (hi : i ≤ inputs.length) :
    (keyloggerStateAfter inputs i).last_key_was_correction =
      (if i = 0 then false
        else (inputs.getD (i - 1) defaultKeyInput).is_correction) := by
  cases i with
  | zero => rfl
  | succ j =>
    rw [stateAfter_succ inputs j (by omega)]
    simp [detectCorrection_flag]

/-- Claim C7: a correction event is classified single_correction when the
previous event was not a correction (or there is none) and
multi_correction when it was; each correction pops one character off the
rolling buffer as the best-effort corrected text, empty when the buffer
is empty. -/
theorem C7_correction_classification (inputs : List KeyInput) (i : Nat)
    (hi : i < inputs.length)
    (hc : (inputs.getD i defaultKeyInput).is_correction = true) :
    ((processKeylogger inputs).getD i defaultCorrectionData).correction_type =
      (if i = 0 then "single_correction"
        else if (inputs.getD (i - 1) defaultKeyInput).is_correction then
          "multi_correction"
        else "single_correction") ∧
    ((processKeylogger inputs).getD i defaultCorrectionData).corrected_text =
      (((keyloggerStateAfter inputs i).recent_keystrokes.getLast?).getD "") ∧
    (keyloggerStateAfter inputs (i + 1)).recent_keystrokes =
      (keyloggerStateAfter inputs i).recent_keystrokes.dropLast := by
  have hout : (processKeylogger inputs).getD i defaultCorrectionData =
      (detectCorrectionSequence (keyloggerStateAfter inputs i)
        (inputs.getD i defaultKeyInput)).1 :=
    processFrom_getD inputs initKeyloggerState i hi
  have hflag := stateAfter_flag inputs i (by omega)
  have hnext := stateAfter_succ inputs i hi
  set st := keyloggerStateAfter inputs i with hst
  by_cases hbuf : 0 < st.recent_keystrokes.length
  · refine ⟨?_, ?_, ?_⟩
    · rw [hout]
      simp only [detectCorrectionSequence, hc, if_true, if_pos hbuf]
      rw [hflag]
      cases hzero : decide (i = 0) with
      | true =>
        simp only [decide_eq_true_eq] at hzero
        simp [hzero]
      | false =>
        simp only [decide_eq_false_iff_not] at hzero
        simp only [if_neg hzero]
        cases hprev : (inputs.getD (i - 1) defaultKeyInput).is_correction <;> simp
    · rw [hout]
      simp only [detectCorrectionSequence, hc, if_true, if_pos hbuf]
    · rw [hnext]
      simp only [detectCorrectionSequence, hc, if_true, if_pos hbuf]
  · have hnil : st.recent_keystrokes = [] := by
      cases h : st.recent_keystrokes with
      | nil => rfl
      | cons a l => rw [h] at hbuf; simp at hbuf
    refine ⟨?_, ?_, ?_⟩
    · rw [hout]
      simp only [detectCorrectionSequence, hc, if_true, if_neg hbuf]
      rw [hflag]
      cases hzero : decide (i = 0) with
      | true =>
        simp only [decide_eq_true_eq] at hzero
        simp [hzero]
      | false =>
        simp only [decide_eq_false_iff_not] at hzero
        simp only [if_neg hzero]
        cases hprev : (inputs.getD (i - 1) defaultKeyInput).is_correction <;> simp
    · rw [hout]
      simp only [detectCorrectionSequence, hc, if_true, if_neg hbuf, hnil]
      simp
    · rw [hnext]
      simp only [detectCorrectionSequence, hc, if_true, if_neg hbuf, hnil]
      simp

/-- Claim C7 witness: in the concrete letter-backspace-backspace stream
the first correction is single (popping the letter a) and the second is
multi with an empty pop from the emptied buffer. -/
theorem C7_correction_classification_witness :
    (((processKeylogger c7Inputs).getD 1 defaultCorrectionData).correction_type =
      (if (1:Nat) = 0 then "single_correction"
        else if (c7Inputs.getD 0 defaultKeyInput).is_correction then
          "multi_correction"
        else "single_correction")) ∧
    (((processKeylogger c7Inputs).getD 2 defaultCorrectionData).correction_type =
      (if (2:Nat) = 0 then "single_correction"
        else if (c7Inputs.getD 1 defaultKeyInput).is_correction then
          "multi_correction"
        else "single_correction")) ∧
    ((processKeylogger c7Inputs).getD 2 defaultCorrectionData).corrected_text =
      (((keyloggerStateAfter c7Inputs 2).recent_keystrokes.getLast?).getD "") :=
  ⟨(C7_correction_classification c7Inputs 1 (by decide) (by decide)).1,
    (C7_correction_classification c7Inputs 2 (by decide) (by decide)).1,
    (C7_correction_classification c7Inputs 2 (by decide) (by decide)).2.1⟩

theorem listLeads_length {α : Type} [DecidableEq α] :
    ∀ (p l : List α), listLeads p l = true → p.length ≤ l.length := by
  intro p
  induction p with
  | nil => intro l _; simp
  | cons a p ih =>
    intro l h
    cases l with
    | nil => simp [listLeads] at h
    | cons b l =>
      simp only [listLeads, Bool.and_eq_true] at h
      simpa using ih l h.2

theorem listContainsSub_length {α : Type} [DecidableEq α] :
    ∀ (sub l : List α), listContainsSub sub l = true → sub.length ≤ l.length := by
  intro sub l
  induction l with
  | nil =>
    intro h
    simp only [listContainsSub, List.isEmpty_iff] at h
    simp [h]
  | cons b l ih =>
    intro h
    simp only [listContainsSub, Bool.or_eq_true] at h
    rcases h with h | h
    · simpa using listLeads_length sub (b :: l) h
    · have := ih h
      simp only [List.length_cons]
      omega

theorem flatten_data_length_le :
    ∀ (L : List String), (∀ x ∈ L, x.length ≤ 1) →
      ((L.map String.data).flatten).length ≤ L.length := by
  intro L
  induction L with
  | nil => intro _; simp
  | cons x L ih =>
    intro h
    simp only [List.map_cons, List.flatten_cons, List.length_append,
      List.length_cons]
    have h1 : x.data.length ≤ 1 := h x (by simp)
    have h2 := ih (fun y hy => h y (by simp [hy]))
    omega

theorem recentText_data_length (buf : List String)
    (h : ∀ s ∈ buf, s.length ≤ 1) : (recentText buf).data.length ≤ 6 := by
  unfold recentText pyLower pyLastN
  simp only [String.mk, List.length_map]
  have hsub : ∀ s ∈ buf.drop (buf.length - 6), s.length ≤ 1 :=
    fun s hs => h s (List.drop_subset _ buf hs)
  have h1 := flatten_data_length_le (buf.drop (buf.length - 6)) hsub
  have h2 : (buf.drop (buf.length - 6)).length ≤ 6 := by
    simp only [List.length_drop]
    omega
  omega

theorem typo_table_short :
    ∀ p ∈ common_typos, p.1.length ≤ 6 →
      p = (("teh"), ("the")) ∨ p = (("adn"), ("and")) := by
  decide

theorem detectCorrection_step_typo (st : KeyloggerState) (inp : KeyInput)
    (hbuf : ∀ s ∈ st.recent_keystrokes, s.length ≤ 1)
    (hinp : inp.key_char.length ≤ 1) :
    (((detectCorrectionSequence st inp).1).likely_typo = true →
      ((detectCorrectionSequence st inp).1).typo_pattern = some ("teh -> the") ∨
        ((detectCorrectionSequence st inp).1).typo_pattern = some ("adn -> and")) ∧
    (∀ s ∈ ((detectCorrectionSequence st inp).2).recent_keystrokes,
      s.length ≤ 1) := by
  rcases hr : detectCorrectionSequence st inp with ⟨out, st2⟩
  simp only [detectCorrectionSequence] at hr
  by_cases hic : inp.is_correction = true
  · rw [if_pos hic] at hr
    split at hr <;>
      (rw [Prod.mk.injEq] at hr
       obtain ⟨ho, hs2⟩ := hr
       subst ho
       subst hs2)
    · refine ⟨fun h => by simp at h, fun s hs => ?_⟩
      exact hbuf s (List.dropLast_subset _ hs)
    · exact ⟨fun h => by simp at h, fun s hs => hbuf s hs⟩
  · rw [if_neg hic] at hr
    have hbuf1 : ∀ s ∈ st.recent_keystrokes ++ [inp.key_char], s.length ≤ 1 := by
      intro s hs
      rcases List.mem_append.mp hs with hs | hs
      · exact hbuf s hs
      · rcases List.mem_singleton.mp hs with rfl
        exact hinp
    have hbuf2 : ∀ s ∈ (if 10 < (st.recent_keystrokes ++ [inp.key_char]).length
        then List.drop 1 (st.recent_keystrokes ++ [inp.key_char])
        else st.recent_keystrokes ++ [inp.key_char]), s.length ≤ 1 := by
      intro s hs
      split at hs
      · exact hbuf1 s (List.drop_subset _ _ hs)
      · exact hbuf1 s hs
    by_cases hpr : (pyTruthyStr inp.key_char && pyIsPrintable inp.key_char) = true
    · rw [if_pos hpr] at hr
      split at hr
      · next p heq =>
        rw [Prod.mk.injEq] at hr
        obtain ⟨ho, hs2⟩ := hr
        subst ho
        subst hs2
        refine ⟨fun _ => ?_, fun s hs => hbuf2 s hs⟩
        have hif : 2 ≤ (if 10 < (st.recent_keystrokes ++ [inp.key_char]).length
            then List.drop 1 (st.recent_keystrokes ++ [inp.key_char])
            else st.recent_keystrokes ++ [inp.key_char]).length := by
          by_contra hcon
          rw [if_neg hcon] at heq
          simp at heq
        rw [if_pos hif] at heq
        have hmem := List.mem_of_find?_eq_some heq
        have hpred := List.find?_some heq
        have hlen : p.1.length ≤ 6 := by
          unfold pyInStr at hpred
          have h1 := listContainsSub_length p.1.data _ hpred
          have h2 := recentText_data_length _ hbuf2
          have h3 : p.1.length = p.1.data.length := rfl
          omega
        rcases typo_table_short p hmem hlen with rfl | rfl
        · left; with_unfolding_all rfl
        · right; with_unfolding_all rfl
      · rw [Prod.mk.injEq] at hr
        obtain ⟨ho, hs2⟩ := hr
        subst ho
        subst hs2
        exact ⟨fun h => by simp at h, fun s hs => hbuf2 s hs⟩
    · rw [if_neg hpr] at hr
      rw [Prod.mk.injEq] at hr
      obtain ⟨ho, hs2⟩ := hr
      subst ho
      subst hs2
      exact ⟨fun h => by simp at h, fun s hs => hbuf s hs⟩

theorem processFrom_typo :
    ∀ (inputs : List KeyInput) (st : KeyloggerState),
      (∀ s ∈ st.recent_keystrokes, s.length ≤ 1) →
      (∀ inp ∈ inputs, inp.key_char.length ≤ 1) →
      ∀ out ∈ processKeyloggerFrom st inputs, out.likely_typo = true →
        out.typo_pattern = some ("teh -> the") ∨
          out.typo_pattern = some ("adn -> and") := by
  intro inputs
  induction inputs with
  | nil => intro st _ _ out hout; simp [processKeyloggerFrom] at hout
  | cons inp rest ih =>
    intro st hbuf hinp out hout hflag
    have hstep := detectCorrection_step_typo st inp hbuf (hinp inp (by simp))
    simp only [processKeyloggerFrom, List.mem_cons] at hout
    rcases hout with rfl | hout
    · exact hstep.1 hflag
    · exact ih (detectCorrectionSequence st inp).2 hstep.2
        (fun x hx => hinp x (by simp [hx])) out hout hflag

/-- Claim C9: because the typo matcher tests the table entries against at
most the last six buffered characters, an event can be flagged
likely_typo only with one of the two patterns of length at most six; the
five longer table entries are unreachable. -/
theorem C9_typo_reachability (inputs : List KeyInput)
    (h : ∀ inp ∈ inputs, inp.key_char.length ≤ 1) :
    ∀ out ∈ processKeylogger inputs, out.likely_typo = true →
      out.typo_pattern = some ("teh -> the") ∨
        out.typo_pattern = some ("adn -> and") :=
  processFrom_typo inputs initKeyloggerState
    (by intro s hs; simp [initKeyloggerState] at hs) h

/-- Claim C9 witness: typing t, e, h flags the third event and its pattern
is one of the two short table entries. -/
theorem C9_typo_reachability_witness :
    ((processKeylogger c9Inputs).getD 2 defaultCorrectionData).typo_pattern =
        some ("teh -> the") ∨
      ((processKeylogger c9Inputs).getD 2 defaultCorrectionData).typo_pattern =
        some ("adn -> and") :=
  C9_typo_reachability c9Inputs (by decide)
    ((processKeylogger c9Inputs).getD 2 defaultCorrectionData)
    (by decide) (by decide)

/-- Claim C6: word reconstruction on hello world typed with trailing
spaces yields exactly the segments hello and world; typing helllo, two
backspaces, o and a space yields exactly hello. -/
theorem C6_word_reconstruction :
    (analyzeWordPatterns c6EventsA).text_segments = [("hello"), ("world")] ∧
      (analyzeWordPatterns c6EventsB).text_segments = [("hello")] := by
  exact ⟨by decide, by decide⟩

theorem pyGroup_mem {κ α : Type} [DecidableEq κ] (l : List (κ × α)) (k : κ)
    (v : List α) (h : (k, v) ∈ pyGroup l) :
    v = (l.filter (fun p => decide (p.1 = k))).map (·.2) := by
  simp only [pyGroup, List.mem_map] at h
  obtain ⟨k2, _, heq⟩ := h
  rw [Prod.mk.injEq] at heq
  obtain ⟨rfl, hv⟩ := heq
  exact hv.symm

/-- Claim C8: every minimum-sample statistic is present only above its
threshold: a key enters key_hesitation_stats only with at least six
recorded pauses, an application enters app_error_rates only with at least
twenty keystrokes, an hour enters hourly_error_rates only with at least
ten keystrokes, and every session segment has at least two events. -/
theorem C8_minimum_samples (cfg : Config) (events : List KeystrokeEvent) :
    (∀ p ∈ (analyzeHesitationPatterns cfg events).key_hesitation_stats,
      6 ≤ ((events.filter (fun e => decide (0 < e.pause_before))).filter
        (fun e => decide ((if pyTruthyStr e.key_char then e.key_char
          else e.key_name) = p.1))).length) ∧
    (∀ p ∈ (analyzeErrorPatterns events).app_error_rates,
      20 ≤ (events.filter (fun e => decide (e.app_name = p.1))).length) ∧
    (∀ p ∈ (analyzeErrorPatterns events).hourly_error_rates,
      10 ≤ (events.filter (fun e => decide (hourOf e.timestamp = p.1))).length) ∧
    (∀ s ∈ identifySessionSegments cfg events, 2 ≤ s.length) := by
  refine ⟨?_, ?_, ?_, ?_⟩
  · intro p hp
    simp only [analyzeHesitationPatterns, List.mem_map, List.mem_filter] at hp
    obtain ⟨g, ⟨hg, hglen⟩, heq⟩ := hp
    rw [Prod.mk.injEq] at heq
    obtain ⟨hk, _⟩ := heq
    have hv := pyGroup_mem _ g.1 g.2 (by simpa [keyPauses] using hg)
    have hlen : g.2.length =
        ((events.filter (fun e => decide (0 < e.pause_before))).filter
          (fun e => decide ((if pyTruthyStr e.key_char then e.key_char
            else e.key_name) = g.1))).length := by
      rw [hv]
      simp only [List.length_map, ← List.countP_eq_length_filter]
      rw [List.countP_map]
      rfl
    simp only [decide_eq_true_eq] at hglen
    rw [← hk]
    omega
  · intro p hp
    simp only [analyzeErrorPatterns] at hp
    have hp2 := List.mem_mergeSort.mp hp
    simp only [appErrorRates, List.mem_map, List.mem_filter] at hp2
    obtain ⟨g, ⟨hg, hglen⟩, heq⟩ := hp2
    rw [Prod.mk.injEq] at heq
    obtain ⟨hk, _⟩ := heq
    have hv := pyGroup_mem _ g.1 g.2 hg
    have hlen : g.2.length =
        (events.filter (fun e => decide (e.app_name = g.1))).length := by
      rw [hv]
      simp only [List.length_map, ← List.countP_eq_length_filter]
      rw [List.countP_map]
      rfl
    simp only [decide_eq_true_eq] at hglen
    rw [← hk]
    omega
  · intro p hp
    simp only [analyzeErrorPatterns, hourlyErrorRates, List.mem_map,
      List.mem_filter] at hp
    obtain ⟨g, ⟨hg, hglen⟩, heq⟩ := hp
    rw [Prod.mk.injEq] at heq
    obtain ⟨hk, _⟩ := heq
    have hv := pyGroup_mem _ g.1 g.2 hg
    have hlen : g.2.length =
        (events.filter (fun e => decide (hourOf e.timestamp = g.1))).length := by
      rw [hv]
      simp only [List.length_map, ← List.countP_eq_length_filter]
      rw [List.countP_map]
      rfl
    simp only [decide_eq_true_eq] at hglen
    rw [← hk]
    omega
  · intro s hs
    cases events with
    | nil => simp [identifySessionSegments] at hs
    | cons e rest =>
      cases rest with
      | nil => simp [identifySessionSegments] at hs
      | cons f rest2 =>
        have : identifySessionSegments cfg (e :: f :: rest2) =
            (gapSplitGo (sessionGapThreshold cfg) e [e] (f :: rest2)).filter
              (fun t => decide (1 < t.length)) := by
          show sessionLoop (sessionGapThreshold cfg) e [e] [] (f :: rest2) = _
          rw [sessionLoop_eq_filter]
          simp
        rw [this] at hs
        have := (List.mem_filter.mp hs).2
        simp only [decide_eq_true_eq] at this
        omega

/-- Claim C8 witness: on twenty identical keystrokes the key, application
and hour entries that do appear satisfy their sample floors, and the one
session segment has at least two events. -/
theorem C8_minimum_samples_witness :
    6 ≤ ((c8Events.filter (fun e => decide (0 < e.pause_before))).filter
      (fun e => decide ((if pyTruthyStr e.key_char then e.key_char
        else e.key_name) = ("a")))).length ∧
    20 ≤ (c8Events.filter (fun e => decide (e.app_name = ("A")))).length ∧
    10 ≤ (c8Events.filter (fun e => decide (hourOf e.timestamp = 0))).length ∧
    2 ≤ c8Events.length :=
  ⟨(C8_minimum_samples defaultConfig c8Events).1
      (("a"),
        { mean_pause := 1
          median_pause := 1
          max_pause := 1
          hesitation_rate := 1
          sample_size := 20 })
      (by with_unfolding_all decide),
    (C8_minimum_samples defaultConfig c8Events).2.1 (("A"), 0)
      (by with_unfolding_all decide),
    (C8_minimum_samples defaultConfig c8Events).2.2.1 (0, 0)
      (by with_unfolding_all decide),
    (C8_minimum_samples defaultConfig c8Events).2.2.2 c8Events
      (by with_unfolding_all decide)⟩

/-- Claim C3 (corrected): two runs of run_full_analysis on the same events,
configuration and environment agree on every derived section (key usage,
hesitation, efficiency, finger usage, cognitive load, error patterns,
word patterns, key combinations, optimization opportunities, session
analysis) and on the non-clock metadata, whatever wall-clock readings and
network outcomes the runs see.  The original claim fails because the
claude_insights section can also differ between runs (see the
counterexample). -/
theorem C3_reproducibility (cfg : Config) (env : ClaudeEnv)
    (events : List KeystrokeEvent) (now1 now2 cnow1 cnow2 : String)
    (net1 net2 : NetResult) :
    (runFullAnalysis cfg env events now1 cnow1 net1).map (·.key_usage) =
        (runFullAnalysis cfg env events now2 cnow2 net2).map (·.key_usage) ∧
    (runFullAnalysis cfg env events now1 cnow1 net1).map (·.hesitation_patterns) =
        (runFullAnalysis cfg env events now2 cnow2 net2).map
          (·.hesitation_patterns) ∧
    (runFullAnalysis cfg env events now1 cnow1 net1).map (·.efficiency_metrics) =
        (runFullAnalysis cfg env events now2 cnow2 net2).map
          (·.efficiency_metrics) ∧
    (runFullAnalysis cfg env events now1 cnow1 net1).map (·.finger_usage) =
        (runFullAnalysis cfg env events now2 cnow2 net2).map (·.finger_usage) ∧
    (runFullAnalysis cfg env events now1 cnow1 net1).map (·.cognitive_load) =
        (runFullAnalysis cfg env events now2 cnow2 net2).map (·.cognitive_load) ∧
    (runFullAnalysis cfg env events now1 cnow1 net1).map (·.error_patterns) =
        (runFullAnalysis cfg env events now2 cnow2 net2).map (·.error_patterns) ∧
    (runFullAnalysis cfg env events now1 cnow1 net1).map (·.word_patterns) =
        (runFullAnalysis cfg env events now2 cnow2 net2).map (·.word_patterns) ∧
    (runFullAnalysis cfg env events now1 cnow1 net1).map (·.key_combinations) =
        (runFullAnalysis cfg env events now2 cnow2 net2).map
          (·.key_combinations) ∧
    (runFullAnalysis cfg env events now1 cnow1 net1).map
        (·.optimization_opportunities) =
      (runFullAnalysis cfg env events now2 cnow2 net2).map
        (·.optimization_opportunities) ∧
    (runFullAnalysis cfg env events now1 cnow1 net1).map (·.session_analysis) =
        (runFullAnalysis cfg env events now2 cnow2 net2).map
          (·.session_analysis) ∧
    (runFullAnalysis cfg env events now1 cnow1 net1).map
        (fun r => r.metadata.total_events) =
      (runFullAnalysis cfg env events now2 cnow2 net2).map
        (fun r => r.metadata.total_events) ∧
    (runFullAnalysis cfg env events now1 cnow1 net1).map
        (fun r => (r.metadata.time_range_start, r.metadata.time_range_end)) =
      (runFullAnalysis cfg env events now2 cnow2 net2).map
        (fun r => (r.metadata.time_range_start, r.metadata.time_range_end)) := by
  by_cases h : events.isEmpty <;> simp [runFullAnalysis, h]

/-- Claim C3 counterexample: two runs on identical events, configuration,
environment and wall clock whose network outcomes differ produce result
structures that differ in claude_insights while their entire metadata
(including the wall-clock timestamp) is identical: the differing field is
not a metadata timestamp. -/
theorem C3_reproducibility_counterexample :
    (runFullAnalysis defaultConfig defaultClaudeEnv c3Events ("T") ("T2")
        NetResult.netTimeout).map (·.claude_insights) ≠
      (runFullAnalysis defaultConfig defaultClaudeEnv c3Events ("T") ("T2")
        (NetResult.response 200 (some ("insight")) "")).map (·.claude_insights) ∧
    (runFullAnalysis defaultConfig defaultClaudeEnv c3Events ("T") ("T2")
        NetResult.netTimeout).map (·.metadata) =
      (runFullAnalysis defaultConfig defaultClaudeEnv c3Events ("T") ("T2")
        (NetResult.response 200 (some ("insight")) "")).map (·.metadata) := by
  exact ⟨by with_unfolding_all decide, by with_unfolding_all decide⟩

/-- Claim C10: the estimated_total_savings figure is the savings sum over
the full pre-truncation opportunity list, and on the concrete c10Events
input the full list carries 320 keystrokes of estimated savings while the
ten returned opportunities carry only 280: the figure includes savings of
opportunities that are not returned. -/
theorem C10_savings_full_list :
    (∀ (cfg : Config) (events : List KeystrokeEvent),
      (analyzeOptimizationOpportunities cfg events).estimated_total_savings =
        savingsSum (opportunitiesPreSort cfg events)) ∧
    (analyzeOptimizationOpportunities defaultConfig
        c10Events).estimated_total_savings = 320 ∧
    savingsSum
        ((analyzeOptimizationOpportunities defaultConfig
          c10Events).opportunities) = 280 := by
  refine ⟨?_, by with_unfolding_all decide, by with_unfolding_all decide⟩
  intro cfg events
  show savingsSum ((opportunitiesPreSort cfg events).mergeSort _) = _
  unfold savingsSum
  exact ((List.mergeSort_perm (opportunitiesPreSort cfg events) _).filterMap
    _).sum_eq
